import Mathlib

/-!
Verification development for the artifact modification and validation
pipeline of the AI game generator backend.

The Python sources under `backend/app` are shallowly embedded as
executable Lean definitions:

* `utils/constants.py`  — keyword families and validation constants;
* `utils/validation.py` — the `ComprehensiveValidator` used by the
  modification engine;
* `utils/code_utils.py` — `JavaScriptParser.replace_color_values`;
* `utils/diff_engine.py` — `DiffEngine.analyze_code_diff` and
  `SemanticDiffAnalyzer.calculate_change_impact`;
* `services/code_validator.py` — `CodeValidator.validate_game_code`;
* `services/modification_engine.py` — `ModificationEngine` and its
  `apply_modification` state machine.

Python regular-expression searches are embedded as explicit scanners
over `List Char`.  External collaborators (the OpenAI call, the
`BeautifulSoup`/`difflib` libraries, the wall clock) are modelled at
their interface: the AI call is an `Except`-valued parameter, the HTML
tokenizer is a small tag scanner that can fail on input that cannot be
minimally tokenized, line diffing uses common prefix/suffix trimming
(which agrees with `difflib.unified_diff` on the single-changed-line
inputs considered here, including the `+++`/`---` header lines that the
source counts among additions and deletions), and timestamps are
explicit parameters.
-/

/-! ### Character helpers (Python string semantics) -/

/-- The double-quote character. -/
def quoteD : Char := Char.ofNat 34

/-- The single-quote character. -/
def quoteS : Char := Char.ofNat 39

/-- The opening-brace character. -/
def lbraceC : Char := Char.ofNat 123

/-- The closing-brace character. -/
def rbraceC : Char := Char.ofNat 125

/-- Quote characters, as in the regex character class of quotes. -/
def isQuoteChar (c : Char) : Bool := c = quoteD || c = quoteS

/-- Python regex `\s` (ASCII): space, tab, newline, carriage return,
vertical tab, form feed. -/
def isPyWs (c : Char) : Bool :=
  c = ' ' || c = Char.ofNat 9 || c = Char.ofNat 10 || c = Char.ofNat 13 ||
  c = Char.ofNat 11 || c = Char.ofNat 12

/-- Python regex `\w` restricted to ASCII: letters, digits, underscore. -/
def isPyWord (c : Char) : Bool := c.isAlphanum || c = '_'

/-- Case-insensitive prefix test, modelling `re.IGNORECASE` matching of a
literal. -/
def ciIsPrefix : List Char → List Char → Bool
  | [], _ => true
  | _ :: _, [] => false
  | p :: ps, c :: cs => (p.toLower = c.toLower : Bool) && ciIsPrefix ps cs

/-- Case-sensitive prefix test. -/
def csIsPrefix : List Char → List Char → Bool
  | [], _ => true
  | _ :: _, [] => false
  | p :: ps, c :: cs => (p = c : Bool) && csIsPrefix ps cs

/-- Python substring containment `pat in hay` (case-sensitive). -/
def containsSub (hay pat : List Char) : Bool :=
  csIsPrefix pat hay ||
    match hay with
    | [] => false
    | _ :: t => containsSub t pat

/-- Python `pat in hay` on strings. -/
def strContains (s pat : String) : Bool := containsSub s.toList pat.toList

/-- Python `str.lower()` (ASCII model). -/
def pyLower (s : String) : String := String.mk (s.toList.map Char.toLower)

theorem ciIsPrefix_length {p l : List Char} (h : ciIsPrefix p l = true) :
    p.length ≤ l.length := by
  induction p generalizing l with
  | nil => simp
  | cons x xs ih =>
    cases l with
    | nil => simp [ciIsPrefix] at h
    | cons c cs =>
      simp only [ciIsPrefix, Bool.and_eq_true] at h
      simpa [Nat.succ_le_succ_iff] using ih h.2

theorem csIsPrefix_length {p l : List Char} (h : csIsPrefix p l = true) :
    p.length ≤ l.length := by
  induction p generalizing l with
  | nil => simp
  | cons x xs ih =>
    cases l with
    | nil => simp [csIsPrefix] at h
    | cons c cs =>
      simp only [csIsPrefix, Bool.and_eq_true] at h
      simpa [Nat.succ_le_succ_iff] using ih h.2

/-! ### Regex scanners

Python `re` searches used by the sources are embedded through a small
pattern language.  A pattern is a sequence of elements; `star`/`plus`
elements backtrack, so `pmatch` succeeds exactly when the corresponding
regex matches a prefix of the input (match ends are taken minimal; for
every pattern below the element following a repetition is disjoint from
the repeated class or a literal that terminates the run, so scan
positions agree with CPython's semantics). -/

/-- Character classes appearing in the embedded regexes. -/
inductive CharCls where
  | pyWs        -- `\s`
  | pyWord      -- `\w`
  | nonNl       -- `.` without DOTALL
  | anyCh       -- `.` with DOTALL
  | nonGt       -- `[^>]`
  | nonLbrace   -- `[^{]`
  | nonRbrace   -- `[^}]`
  | urlCh       -- `[^"'>\s]`
  | digit       -- `\d`
  | nonName     -- `[^a-zA-Z_$]`
  deriving Repr, DecidableEq

/-- Class membership. -/
def clsMem : CharCls → Char → Bool
  | .pyWs, c => isPyWs c
  | .pyWord, c => isPyWord c
  | .nonNl, c => !(c = Char.ofNat 10)
  | .anyCh, _ => true
  | .nonGt, c => !(c = '>')
  | .nonLbrace, c => !(c = lbraceC)
  | .nonRbrace, c => !(c = rbraceC)
  | .urlCh, c => !(isQuoteChar c) && !(c = '>') && !(isPyWs c)
  | .digit, c => c.isDigit
  | .nonName, c => !(c.isAlpha || c = '_' || c = '$')

/-- Pattern elements: literals (case-sensitive or not), a single class
character, and backtracking `*` / `+` repetitions. -/
inductive PElem where
  | lit (s : List Char)
  | litCI (s : List Char)
  | litAlt (ss : List (List Char))   -- first-match alternation of literals
  | one (c : CharCls)
  | star (c : CharCls)
  | plus (c : CharCls)
  deriving Repr, DecidableEq

/-- Fuelled matcher; the fuel only enforces structural termination and
is irrelevant once it exceeds `ps.length + l.length`
(`pmatchF_irrel`). -/
def pmatchF : Nat → List PElem → List Char → Option (List Char)
  | 0, _, _ => none
  | _ + 1, [], l => some l
  | fuel + 1, .lit s :: ps, l =>
    if csIsPrefix s l then pmatchF fuel ps (l.drop s.length) else none
  | fuel + 1, .litCI s :: ps, l =>
    if ciIsPrefix s l then pmatchF fuel ps (l.drop s.length) else none
  | fuel + 1, .litAlt ss :: ps, l =>
    match ss.find? (fun s => csIsPrefix s l) with
    | some s => pmatchF fuel ps (l.drop s.length)
    | none => none
  | fuel + 1, .one c :: ps, l =>
    match l with
    | [] => none
    | x :: t => if clsMem c x then pmatchF fuel ps t else none
  | fuel + 1, .star c :: ps, l =>
    match pmatchF fuel ps l with
    | some r => some r
    | none =>
      match l with
      | [] => none
      | x :: t =>
        if clsMem c x then pmatchF fuel (.star c :: ps) t else none
  | fuel + 1, .plus c :: ps, l =>
    match l with
    | [] => none
    | x :: t => if clsMem c x then pmatchF fuel (.star c :: ps) t else none

theorem pmatchF_irrel (n : Nat) :
    ∀ ps l (f1 f2 : Nat), ps.length + l.length ≤ n → n < f1 → n < f2 →
      pmatchF f1 ps l = pmatchF f2 ps l := by
  induction n using Nat.strong_induction_on with
  | _ n ih =>
    intro ps l f1 f2 hn h1 h2
    match f1, h1 with
    | a + 1, _ =>
    match f2, h2 with
    | b + 1, _ =>
    match ps with
    | [] => rfl
    | .lit s :: ps =>
      simp only [pmatchF]
      by_cases hp : csIsPrefix s l
      · simp only [hp, if_true]
        exact ih (ps.length + (l.drop s.length).length)
          (by simp only [List.length_cons, List.length_drop] at hn ⊢; omega)
          ps (l.drop s.length) a b (le_refl _)
          (by simp only [List.length_cons, List.length_drop] at hn ⊢; omega)
          (by simp only [List.length_cons, List.length_drop] at hn ⊢; omega)
      · simp [hp]
    | .litCI s :: ps =>
      simp only [pmatchF]
      by_cases hp : ciIsPrefix s l
      · simp only [hp, if_true]
        exact ih (ps.length + (l.drop s.length).length)
          (by simp only [List.length_cons, List.length_drop] at hn ⊢; omega)
          ps (l.drop s.length) a b (le_refl _)
          (by simp only [List.length_cons, List.length_drop] at hn ⊢; omega)
          (by simp only [List.length_cons, List.length_drop] at hn ⊢; omega)
      · simp [hp]
    | .litAlt ss :: ps =>
      simp only [pmatchF]
      cases hf : ss.find? (fun s => csIsPrefix s l) with
      | none => rfl
      | some s =>
        exact ih (ps.length + (l.drop s.length).length)
          (by simp only [List.length_cons, List.length_drop] at hn ⊢; omega)
          ps (l.drop s.length) a b (le_refl _)
          (by simp only [List.length_cons, List.length_drop] at hn ⊢; omega)
          (by simp only [List.length_cons, List.length_drop] at hn ⊢; omega)
    | .one c :: ps =>
      match l with
      | [] => rfl
      | x :: t =>
        simp only [pmatchF]
        by_cases hc : clsMem c x
        · simp only [hc, if_true]
          exact ih (ps.length + t.length)
            (by simp only [List.length_cons] at hn; omega)
            ps t a b (le_refl _)
            (by simp only [List.length_cons] at hn; omega)
            (by simp only [List.length_cons] at hn; omega)
        · simp [hc]
    | .star c :: ps =>
      simp only [pmatchF]
      have hrec : pmatchF a ps l = pmatchF b ps l :=
        ih (ps.length + l.length)
          (by simp only [List.length_cons] at hn; omega)
          ps l a b (le_refl _)
          (by simp only [List.length_cons] at hn; omega)
          (by simp only [List.length_cons] at hn; omega)
      rw [hrec]
      cases hm : pmatchF b ps l with
      | some r => rfl
      | none =>
        match l with
        | [] => rfl
        | x :: t =>
          simp only []
          by_cases hc : clsMem c x
          · simp only [hc, if_true]
            exact ih (ps.length + 1 + t.length)
              (by simp only [List.length_cons] at hn; omega)
              (.star c :: ps) t a b (by simp)
              (by simp only [List.length_cons] at hn; omega)
              (by simp only [List.length_cons] at hn; omega)
          · simp [hc]
    | .plus c :: ps =>
      match l with
      | [] => rfl
      | x :: t =>
        simp only [pmatchF]
        by_cases hc : clsMem c x
        · simp only [hc, if_true]
          exact ih (ps.length + 1 + t.length)
            (by simp only [List.length_cons] at hn; omega)
            (.star c :: ps) t a b (by simp)
            (by simp only [List.length_cons] at hn; omega)
            (by simp only [List.length_cons] at hn; omega)
        · simp [hc]

/-- Match a pattern against a prefix of `l`; return the remainder after
the match. -/
def pmatch (ps : List PElem) (l : List Char) : Option (List Char) :=
  pmatchF (ps.length + l.length + 1) ps l

theorem pmatch_nil (l : List Char) : pmatch [] l = some l := rfl

theorem pmatch_lit (s : List Char) (ps : List PElem) (l : List Char) :
    pmatch (.lit s :: ps) l =
      if csIsPrefix s l then pmatch ps (l.drop s.length) else none := by
  unfold pmatch
  simp only [List.length_cons, pmatchF]
  by_cases hp : csIsPrefix s l
  · simp only [hp, if_true]
    exact pmatchF_irrel (ps.length + (l.drop s.length).length)
      ps (l.drop s.length) _ _ (le_refl _)
      (by simp [List.length_drop]; omega) (by omega)
  · simp [hp]

theorem pmatch_litCI (s : List Char) (ps : List PElem) (l : List Char) :
    pmatch (.litCI s :: ps) l =
      if ciIsPrefix s l then pmatch ps (l.drop s.length) else none := by
  unfold pmatch
  simp only [List.length_cons, pmatchF]
  by_cases hp : ciIsPrefix s l
  · simp only [hp, if_true]
    exact pmatchF_irrel (ps.length + (l.drop s.length).length)
      ps (l.drop s.length) _ _ (le_refl _)
      (by simp [List.length_drop]; omega) (by omega)
  · simp [hp]

theorem pmatch_litAlt (ss : List (List Char)) (ps : List PElem)
    (l : List Char) :
    pmatch (.litAlt ss :: ps) l =
      match ss.find? (fun s => csIsPrefix s l) with
      | some s => pmatch ps (l.drop s.length)
      | none => none := by
  unfold pmatch
  simp only [List.length_cons, pmatchF]
  cases hf : ss.find? (fun s => csIsPrefix s l) with
  | none => rfl
  | some s =>
    exact pmatchF_irrel (ps.length + (l.drop s.length).length)
      ps (l.drop s.length) _ _ (le_refl _)
      (by simp [List.length_drop]; omega) (by omega)

theorem pmatch_one_nil (c : CharCls) (ps : List PElem) :
    pmatch (.one c :: ps) [] = none := rfl

theorem pmatch_one_cons (c : CharCls) (ps : List PElem) (x : Char)
    (t : List Char) :
    pmatch (.one c :: ps) (x :: t) =
      if clsMem c x then pmatch ps t else none := by
  unfold pmatch
  simp only [List.length_cons, pmatchF]
  by_cases hc : clsMem c x
  · simp only [hc, if_true]
    exact pmatchF_irrel (ps.length + t.length) ps t _ _ (le_refl _)
      (by omega) (by omega)
  · simp [hc]

theorem pmatch_star (c : CharCls) (ps : List PElem) (l : List Char) :
    pmatch (.star c :: ps) l =
      match pmatch ps l with
      | some r => some r
      | none =>
        match l with
        | [] => none
        | x :: t =>
          if clsMem c x then pmatch (.star c :: ps) t else none := by
  have key : pmatch (.star c :: ps) l =
      (match pmatchF ((PElem.star c :: ps).length + l.length) ps l with
       | some r => some r
       | none =>
         match l with
         | [] => none
         | x :: t =>
           if clsMem c x then
             pmatchF ((PElem.star c :: ps).length + l.length)
               (.star c :: ps) t
           else none) := rfl
  rw [key]
  have h1 : pmatchF ((PElem.star c :: ps).length + l.length) ps l =
      pmatch ps l :=
    pmatchF_irrel (ps.length + l.length) ps l _ _ (le_refl _)
      (by simp only [List.length_cons]; omega) (by omega)
  rw [h1]
  cases hm : pmatch ps l with
  | some r => rfl
  | none =>
    cases l with
    | nil => rfl
    | cons x t =>
      simp only [List.length_cons]
      by_cases hc : clsMem c x
      · simp only [hc, if_true]
        exact pmatchF_irrel ((PElem.star c :: ps).length + t.length)
          (.star c :: ps) t _ _ (le_refl _)
          (by simp only [List.length_cons]; omega)
          (by simp only [List.length_cons]; omega)
      · simp [hc]

theorem pmatch_plus_nil (c : CharCls) (ps : List PElem) :
    pmatch (.plus c :: ps) [] = none := rfl

theorem pmatch_plus_cons (c : CharCls) (ps : List PElem) (x : Char)
    (t : List Char) :
    pmatch (.plus c :: ps) (x :: t) =
      if clsMem c x then pmatch (.star c :: ps) t else none := by
  have key : pmatch (.plus c :: ps) (x :: t) =
      (if clsMem c x then
        pmatchF ((PElem.plus c :: ps).length + (x :: t).length)
          (.star c :: ps) t
      else none) := rfl
  rw [key]
  by_cases hc : clsMem c x
  · simp only [hc, if_true]
    exact pmatchF_irrel ((PElem.star c :: ps).length + t.length)
      (.star c :: ps) t _ _ (le_refl _)
      (by simp only [List.length_cons]; omega)
      (by simp only [List.length_cons]; omega)
  · simp [hc]

/-- `re.search` existence: does the pattern match at some position? -/
def scanHas (p : List PElem) (l : List Char) : Bool :=
  (pmatch p l).isSome ||
    match l with
    | [] => false
    | _ :: t => scanHas p t

/-- Fuelled occurrence counter (`scanCount` fixes the fuel). -/
def scanCountF (p : List PElem) : Nat → List Char → Nat
  | 0, _ => 0
  | fuel + 1, l =>
    match pmatch p l with
    | some r =>
      if r.length < l.length then 1 + scanCountF p fuel r
      else
        match l with
        | [] => 1
        | _ :: t => 1 + scanCountF p fuel t
    | none =>
      match l with
      | [] => 0
      | _ :: t => scanCountF p fuel t

theorem scanCountF_irrel (p : List PElem) (n : Nat) :
    ∀ l (f1 f2 : Nat), l.length ≤ n → n < f1 → n < f2 →
      scanCountF p f1 l = scanCountF p f2 l := by
  induction n using Nat.strong_induction_on with
  | _ n ih =>
    intro l f1 f2 hn h1 h2
    match f1, h1 with
    | a + 1, _ =>
    match f2, h2 with
    | b + 1, _ =>
    simp only [scanCountF]
    cases hm : pmatch p l with
    | some r =>
      by_cases hr : r.length < l.length
      · simp only [hr, if_true]
        have := ih r.length (by omega) r a b (le_refl _) (by omega)
          (by omega)
        omega
      · simp only [hr, if_false]
        match l with
        | [] => rfl
        | x :: t =>
          simp only []
          have := ih t.length
            (by simp only [List.length_cons] at hn; omega)
            t a b (le_refl _)
            (by simp only [List.length_cons] at hn; omega)
            (by simp only [List.length_cons] at hn; omega)
          omega
    | none =>
      match l with
      | [] => rfl
      | x :: t =>
        simp only []
        exact ih t.length
          (by simp only [List.length_cons] at hn; omega)
          t a b (le_refl _)
          (by simp only [List.length_cons] at hn; omega)
          (by simp only [List.length_cons] at hn; omega)

/-- `len(re.findall(...))`: number of non-overlapping matches, scanning
left to right (all patterns used consume at least one character). -/
def scanCount (p : List PElem) (l : List Char) : Nat :=
  scanCountF p (l.length + 1) l

theorem scanCount_eq (p : List PElem) (l : List Char) :
    scanCount p l =
      match pmatch p l with
      | some r =>
        if r.length < l.length then 1 + scanCount p r
        else
          match l with
          | [] => 1
          | _ :: t => 1 + scanCount p t
      | none =>
        match l with
        | [] => 0
        | _ :: t => scanCount p t := by
  show scanCountF p (l.length + 1) l = _
  simp only [scanCountF]
  cases hm : pmatch p l with
  | some r =>
    simp only [hm]
    by_cases hr : r.length < l.length
    · simp only [hr, if_true]
      rw [scanCountF_irrel p r.length r l.length (r.length + 1)
        (le_refl _) (by omega) (by omega)]
      rfl
    · simp only [hr, if_false]
      match l with
      | [] => rfl
      | x :: t => rfl
  | none =>
    simp only [hm]
    match l with
    | [] => rfl
    | x :: t => rfl

/-- Fuelled match deleter (`scanRemove` fixes the fuel):
`re.sub(pattern, "", text)`. -/
def scanRemoveF (p : List PElem) : Nat → List Char → List Char
  | 0, l => l
  | fuel + 1, l =>
    match pmatch p l with
    | some r =>
      if r.length < l.length then scanRemoveF p fuel r
      else
        match l with
        | [] => []
        | x :: t => x :: scanRemoveF p fuel t
    | none =>
      match l with
      | [] => []
      | x :: t => x :: scanRemoveF p fuel t

/-- `re.sub(pattern, "", text)`: delete every non-overlapping match. -/
def scanRemove (p : List PElem) (l : List Char) : List Char :=
  scanRemoveF p (l.length + 1) l

/-- Convenience: search a pattern inside a string. -/
def strHasPat (s : String) (p : List PElem) : Bool := scanHas p s.toList

/-- Count occurrences of a character. -/
def countChar (l : List Char) (c : Char) : Nat := (l.filter (· = c)).length

/-! ### `utils/constants.py` — validation constants -/

/-- `CODE_VALIDATION["allowed_domains"]`. -/
def allowedDomains : List String :=
  ["cdn.jsdelivr.net", "cdnjs.cloudflare.com", "unpkg.com",
   "fonts.googleapis.com", "fonts.gstatic.com"]

/-- `BLOCKED_KEYWORDS` (a Python `set`; modelled in source-listing order —
only membership, never order, is observable in the claims below). -/
def blockedKeywords : List String :=
  ["eval", "exec", "import os", "import sys", "subprocess", "shell", "cmd",
   "powershell", "bash", "sh", "__import__", "compile", "execfile",
   "input", "raw_input", "file", "open"]

/-- `CODE_VALIDATION["max_script_tags"]`. -/
def maxScriptTags : Nat := 10

/-- `settings.game.max_size` (default 1 MiB). -/
def gameMaxSize : Nat := 1048576

/-! ### `utils/validation.py` — `SecurityValidator` and
`ComprehensiveValidator.validate_game_code` -/

/-- Helper: a case-insensitive literal pattern element. -/
def litCIP (s : String) : PElem := .litCI s.toList

/-- Helper: a case-sensitive literal pattern element. -/
def litP (s : String) : PElem := .lit s.toList

/-- `CODE_VALIDATION["blocked_patterns"]`, each as (pattern, message
payload): the Python code reports `f"Blocked pattern detected: {...}"`
with the raw regex; the payload is a stable rendering of that regex. -/
def blockedPatterns : List (List PElem × String) :=
  [([litCIP "document.write"], "document\\.write"),
   ([litCIP "eval", .star .pyWs, litP "("], "eval\\s*\\("),
   ([litCIP "Function", .star .pyWs, litP "("], "Function\\s*\\("),
   ([litCIP "setTimeout", .star .pyWs, litP "("], "setTimeout\\s*\\("),
   ([litCIP "setInterval", .star .pyWs, litP "("], "setInterval\\s*\\("),
   ([litCIP "import", .plus .pyWs, .star .nonNl, .plus .pyWs, litCIP "from"],
    "import\\s+.*\\s+from"),
   ([litCIP "require", .star .pyWs, litP "("], "require\\s*\\("),
   ([litCIP "process."], "process\\."),
   ([litCIP "fs."], "fs\\."),
   ([litCIP "path."], "path\\."),
   ([litCIP "crypto."], "crypto\\."),
   ([litCIP "Buffer."], "Buffer\\.")]

/-- `CODE_VALIDATION["required_patterns"]`. -/
def requiredPatterns : List (List PElem × String) :=
  [([litCIP "<!DOCTYPE html>"], "<!DOCTYPE html>"),
   ([litCIP "<html", .star .nonNl, litP ">"], "<html.*>"),
   ([litCIP "</html>"], "</html>"),
   ([litCIP "<script", .star .nonNl, litP ">", .star .nonNl,
     litCIP "</script>"], "<script.*>.*</script>")]

/-- `r"<script.*?>"`. -/
def scriptOpenLinePat : List PElem := [litCIP "<script", .star .nonNl, litP ">"]

/-- `r"on\w+\s*="`. -/
def eventHandlerPat : List PElem :=
  [litCIP "on", .plus .pyWord, .star .pyWs, litP "="]

/-- Match `https?://[^"'>\s]+` at the head of `l` (case-insensitive
protocol), returning the matched URL text and the rest. -/
def urlAt (l : List Char) : Option (List Char × List Char) :=
  if ciIsPrefix ['h', 't', 't', 'p'] l then
    let rest4 := l.drop 4
    match rest4 with
    | c :: r5 =>
      if ((c.toLower = 's' : Bool) && ciIsPrefix [':', '/', '/'] r5) then
        let run := (r5.drop 3).takeWhile (clsMem .urlCh)
        if run.isEmpty then none
        else some (l.take 4 ++ [c, ':', '/', '/'] ++ run,
                   (r5.drop 3).drop run.length)
      else if ciIsPrefix [':', '/', '/'] rest4 then
        let run := (rest4.drop 3).takeWhile (clsMem .urlCh)
        if run.isEmpty then none
        else some (l.take 4 ++ [':', '/', '/'] ++ run,
                   (rest4.drop 3).drop run.length)
      else none
    | [] => none
  else none

/-- Match the full external-link regex
`(?:src|href)\s*=\s*["']?(https?://[^"'>\s]+)` at the head of `l`,
returning the captured URL and the remainder. -/
def srcHrefUrlAt (l : List Char) : Option (List Char × List Char) :=
  let afterKw : Option (List Char) :=
    if ciIsPrefix ['s', 'r', 'c'] l then some (l.drop 3)
    else if ciIsPrefix ['h', 'r', 'e', 'f'] l then some (l.drop 4)
    else none
  match afterKw with
  | none => none
  | some k =>
    match k.dropWhile isPyWs with
    | '=' :: k2 =>
      let k3 := k2.dropWhile isPyWs
      let k4 := match k3 with
        | q :: kr => if isQuoteChar q then kr else k3
        | [] => k3
      urlAt k4
    | _ => none

/-- Fuelled worker for `extractUrls`. -/
def extractUrlsF : Nat → List Char → List (List Char)
  | 0, _ => []
  | _ + 1, [] => []
  | fuel + 1, l@(_ :: t) =>
    match srcHrefUrlAt l with
    | some (url, r) => url :: extractUrlsF fuel r
    | none => extractUrlsF fuel t

/-- `re.findall` for the external-link regex: all captured URLs. -/
def extractUrls (l : List Char) : List (List Char) :=
  extractUrlsF (l.length + 1) l

/-- Remainder of `l` after the first occurrence of `pat`. -/
def afterSub (l pat : List Char) : Option (List Char) :=
  if csIsPrefix pat l then some (l.drop pat.length)
  else
    match l with
    | [] => none
    | _ :: t => afterSub t pat

/-- `urllib.parse.urlparse(link).netloc` for URLs produced by `urlAt`:
the text after `://` up to the first `/`, `?` or `#`. -/
def urlNetloc (url : List Char) : List Char :=
  match afterSub url [':', '/', '/'] with
  | some r => r.takeWhile (fun c => !(c = '/' || c = '?' || c = '#'))
  | none => []

/-- `SecurityValidator.validate_html_content`. -/
def validateHtmlContent (content : String) : Bool × List String :=
  let cl := content.toList
  let blockedIssues :=
    (blockedPatterns.filter (fun pr => scanHas pr.1 cl)).map
      (fun pr => "Blocked pattern detected: " ++ pr.2)
  let requiredIssues :=
    (requiredPatterns.filter (fun pr => !scanHas pr.1 cl)).map
      (fun pr => "Required pattern missing: " ++ pr.2)
  let scriptCount := scanCount scriptOpenLinePat cl
  let scriptIssues :=
    if scriptCount > maxScriptTags then
      ["Too many script tags: " ++ toString scriptCount]
    else []
  -- the Python message interpolates the list of matched handler texts;
  -- the count is a faithful stand-in for its non-emptiness and size
  let handlerCount := scanCount eventHandlerPat cl
  let handlerIssues :=
    if handlerCount > 0 then
      ["Inline event handlers detected: " ++ toString handlerCount]
    else []
  let domainIssues :=
    ((extractUrls cl).filter
        (fun u => !allowedDomains.contains (String.mk (urlNetloc u)))).map
      (fun u => "Unauthorized external domain: " ++ String.mk (urlNetloc u))
  let issues :=
    blockedIssues ++ requiredIssues ++ scriptIssues ++ handlerIssues ++
      domainIssues
  (issues.isEmpty, issues)

/-- The eight `dangerous_patterns` of
`SecurityValidator.validate_javascript_code`. -/
def jsDangerousPatterns : List (List PElem × String) :=
  [([litCIP "eval", .star .pyWs, litP "("], "eval\\s*\\("),
   ([litCIP "Function", .star .pyWs, litP "("], "Function\\s*\\("),
   ([litCIP "setTimeout", .star .pyWs, litP "("], "setTimeout\\s*\\("),
   ([litCIP "setInterval", .star .pyWs, litP "("], "setInterval\\s*\\("),
   ([litCIP "document.write", .star .pyWs, litP "("],
    "document\\.write\\s*\\("),
   ([litCIP "innerHTML", .star .pyWs, litP "="], "innerHTML\\s*="),
   ([litCIP "outerHTML", .star .pyWs, litP "="], "outerHTML\\s*="),
   ([litCIP "insertAdjacentHTML", .star .pyWs, litP "("],
    "insertAdjacentHTML\\s*\\(")]

/-- `r"<script[^>]*>"`. -/
def scriptOpenTagPat : List PElem := [litCIP "<script", .star .nonGt, litP ">"]

/-- `SecurityValidator.validate_javascript_code`. -/
def validateJavascriptCode (code : String) : Bool × List String :=
  let cl := code.toList
  let dangerousIssues :=
    (jsDangerousPatterns.filter (fun pr => scanHas pr.1 cl)).map
      (fun pr => "Dangerous JavaScript pattern: " ++ pr.2)
  let keywordIssues :=
    (blockedKeywords.filter
        (fun kw => strContains (pyLower code) (pyLower kw))).map
      (fun kw => "Blocked keyword detected: " ++ kw)
  let jsCode :=
    scanRemove [litCIP "</script>"] (scanRemove scriptOpenTagPat cl)
  let syntaxIssues :=
    if jsCode.any (fun c => !isPyWs c) then
      (if countChar jsCode lbraceC ≠ countChar jsCode rbraceC then
        ["Unbalanced braces in JavaScript"] else []) ++
      (if countChar jsCode '(' ≠ countChar jsCode ')' then
        ["Unbalanced parentheses in JavaScript"] else [])
    else []
  let issues := dangerousIssues ++ keywordIssues ++ syntaxIssues
  (issues.isEmpty, issues)

/-- `ComprehensiveValidator.validate_game_code` (the module-level
`validator` instance used by the modification engine). -/
def comprehensiveValidateGameCode (code : String) : Bool × List String :=
  let htmlIssues := (validateHtmlContent code).2
  let jsIssues := (validateJavascriptCode code).2
  let sizeIssues :=
    if code.utf8ByteSize > gameMaxSize then
      ["Game code too large (maximum " ++ toString gameMaxSize ++ " bytes)"]
    else []
  let allIssues := htmlIssues ++ jsIssues ++ sizeIssues
  (allIssues.isEmpty, allIssues)

/-! ### `utils/code_utils.py` — `JavaScriptParser.replace_color_values`

For each mapping entry `(old_color, new_color)` the Python code runs two
`re.sub` calls.  The first is built from the f-string
`f"[\"']#{old_color}[\"']"` after `old_color.replace("#", r"\#")`, so for
a hex key `#RRGGBB` its pattern is quote, `#`, `#RRGGBB`, quote (the `#`
is doubled).  The second, `f"[\"'](?i){old_color}[\"']"`, matches quote,
`old_color`, quote case-insensitively (the inline `(?i)` acts as a
global flag on the Python versions this code was written for).  Both
substitute `f'"{new_color}"'` — the replacement is always wrapped in
double quotes. -/

/-- Head test for the pattern quote-`pat`-quote: the head `c` is a
quote, `pat` matches case-insensitively at the start of `t`, and the
character after it is again a quote. -/
def quotedHeadMatch (pat : List Char) (c : Char) (t : List Char) : Bool :=
  isQuoteChar c && ciIsPrefix pat t &&
    (match t.drop pat.length with
     | q :: _ => isQuoteChar q
     | [] => false)

/-- Substitution walker: with `skip = 0` scan normally; a positive
`skip` consumes characters without scanning or emitting (used to step
over a matched region, whose text is replaced wholesale). -/
def rqGo (pat repl : List Char) : Nat → List Char → List Char
  | _, [] => []
  | skip + 1, _ :: t => rqGo pat repl skip t
  | 0, c :: t =>
    if quotedHeadMatch pat c t then
      repl ++ rqGo pat repl (pat.length + 1) t
    else c :: rqGo pat repl 0 t

/-- One `re.sub` pass for the pattern quote-`pat`-quote with full
replacement text `repl` (non-overlapping, left to right; a match
consumes the opening quote, the pattern and the closing quote). -/
def replaceQuotedPat (pat repl : List Char) (l : List Char) : List Char :=
  rqGo pat repl 0 l

theorem rqGo_skip (pat repl : List Char) :
    ∀ l (k : Nat), rqGo pat repl k l = rqGo pat repl 0 (l.drop k) := by
  intro l
  induction l with
  | nil => intro k; cases k <;> rfl
  | cons c t ih =>
    intro k
    cases k with
    | zero => rfl
    | succ k => simpa [rqGo] using ih k

/-- Does quote-`pat`-quote match anywhere in `l`?  (`replaceQuotedPat`
is the identity exactly when this is false.) -/
def hasQuotedMatch (pat : List Char) : List Char → Bool
  | [] => false
  | c :: t => quotedHeadMatch pat c t || hasQuotedMatch pat t

/-- `JavaScriptParser.replace_color_values`. -/
def jsReplaceColorValues (content : String)
    (mapping : List (String × String)) : String :=
  String.mk <| mapping.foldl
    (fun acc pr =>
      let oldC := pr.1.toList
      let newC := pr.2.toList
      let repl := quoteD :: newC ++ [quoteD]
      -- first sub: quote `#` old quote (the `#` doubled by the escape)
      let acc1 := replaceQuotedPat ('#' :: oldC) repl acc
      -- second sub: quote old quote, case-insensitively
      replaceQuotedPat oldC repl acc1)
    content.toList

/-! ### `services/modification_engine.py` -/

/-- `GameVersion` (pydantic model; timestamps are abstract ticks). -/
structure GameVersion where
  version : Nat
  created_at : Nat
  modification_summary : Option String
  modifications_applied : List String
  code_size : Nat
  generation_time : Rat
  is_current : Bool
  parent_version : Option Nat
  deriving Repr, DecidableEq

/-- The fields of `GameState` read or written by the modification
engine. -/
structure GameState where
  code : String
  current_version : Nat
  versions : List GameVersion
  updated_at : Nat
  deriving Repr, DecidableEq

/-- The result dictionary produced by the `_apply_*_modification`
helpers. -/
structure ModResult where
  modified_code : String
  code_changed : Bool
  modifications_applied : List String
  ai_response : String
  strategy_used : String
  tokens_used : Option Nat
  validation_issues : List String
  error : Option String
  deriving Repr, DecidableEq

/-- The dictionary returned by the external
`AIService.modify_game` collaborator on success. -/
structure AIModOut where
  modified_code : String
  code_changed : Bool
  modifications_applied : List String
  ai_response : String
  tokens_used : Nat
  validation_issues : List String
  deriving Repr, DecidableEq

/-- The AI-modification collaborator: an opaque call that either returns
a result or raises. -/
def AIFn : Type := Except String AIModOut

/-- The result dictionary of `_analyze_modification_request`. -/
structure ModAnalysis where
  strategy : String
  confidence : Rat
  simple_score : Nat
  complex_score : Nat
  estimated_complexity : String
  deriving Repr, DecidableEq

/-- `simple_patterns` in `_analyze_modification_request`. -/
def simplePatterns : List String :=
  ["color", "size", "speed", "bigger", "smaller", "faster", "slower",
   "red", "blue", "green"]

/-- `complex_patterns` in `_analyze_modification_request`. -/
def complexPatterns : List String :=
  ["add", "remove", "create", "new", "feature", "level", "enemy",
   "sound", "physics"]

/-- `ModificationEngine._analyze_modification_request`. -/
def analyzeModificationRequest (message : String) : ModAnalysis :=
  let messageLower := pyLower message
  let simpleScore :=
    (simplePatterns.filter (fun p => strContains messageLower p)).length
  let complexScore :=
    (complexPatterns.filter (fun p => strContains messageLower p)).length
  if simpleScore > complexScore ∧ simpleScore > 0 then
    { strategy := "targeted_change",
      confidence := (simpleScore : Rat) / (simplePatterns.length : Rat),
      simple_score := simpleScore,
      complex_score := complexScore,
      estimated_complexity :=
        if simpleScore > complexScore then "low" else "high" }
  else
    { strategy := "ai_regeneration",
      confidence :=
        if complexScore > 0 then
          (complexScore : Rat) / (complexPatterns.length : Rat)
        else (1 : Rat) / 2,
      simple_score := simpleScore,
      complex_score := complexScore,
      estimated_complexity :=
        if simpleScore > complexScore then "low" else "high" }

/-- `color_names` in `_extract_color_changes` (a literal dict; Python
dicts iterate in insertion order). -/
def colorNames : List (String × String) :=
  [("red", "#ff0000"), ("blue", "#0000ff"), ("green", "#00ff00"),
   ("yellow", "#ffff00"), ("purple", "#800080"), ("orange", "#ffa500"),
   ("pink", "#ffc0cb"), ("black", "#000000"), ("white", "#ffffff")]

/-- `ModificationEngine._extract_color_changes`: the first color name
contained in the message maps the example source color `#0066cc` to its
hex value. -/
def extractColorChanges (message : String) : List (String × String) :=
  let messageLower := pyLower message
  match colorNames.find? (fun pr => strContains messageLower pr.1) with
  | some pr => [("#0066cc", pr.2)]
  | none => []

/-- The result of one targeted sub-transform. -/
structure ColorResult where
  code : String
  changed : Bool
  changes : List String
  deriving Repr, DecidableEq

/-- `ModificationEngine._apply_color_changes` (its `try` body never
raises in this model; the message interpolates the Python dict repr,
rendered here in an equivalent fixed form). -/
def applyColorChanges (code message : String) : ColorResult :=
  let colorMapping := extractColorChanges message
  if colorMapping.isEmpty then
    { code := code, changed := false, changes := [] }
  else
    { code := jsReplaceColorValues code colorMapping,
      changed := true,
      changes :=
        colorMapping.map
          (fun pr => "Changed colors: " ++ pr.1 ++ " -> " ++ pr.2) }

/-- `ModificationEngine._apply_size_changes` (stubbed in the source:
always returns the code unchanged). -/
def applySizeChanges (code _message : String) : ColorResult :=
  { code := code, changed := false, changes := [] }

/-- `ModificationEngine._apply_speed_changes` (stubbed in the source:
always returns the code unchanged). -/
def applySpeedChanges (code _message : String) : ColorResult :=
  { code := code, changed := false, changes := [] }

/-- `ModificationEngine._generate_modification_response`. -/
def generateModificationResponse (modifications : List String) : String :=
  match modifications with
  | [] => "I have updated your game as requested!"
  | [m] => "I have applied the following change: " ++ m
  | ms =>
    "I have applied the following changes: " ++
      String.intercalate ", " (ms.dropLast) ++ ", and " ++
      (ms.getLast? |>.getD "")

/-- The code and tag list produced by the three targeted sub-transforms
of `_apply_targeted_modification` (color, then size, then speed), before
validation. -/
def targetedTransformed (code message : String) : String × List String :=
  let msgL := pyLower message
  let step1 :=
    if strContains msgL "color" then
      let cr := applyColorChanges code message
      if cr.changed then (cr.code, cr.changes) else (code, ([] : List String))
    else (code, [])
  let step2 :=
    if ["size", "bigger", "smaller", "width", "height"].any
        (fun w => strContains msgL w) then
      let sr := applySizeChanges step1.1 message
      if sr.changed then (sr.code, sr.changes) else (step1.1, [])
    else (step1.1, [])
  let step3 :=
    if ["speed", "faster", "slower", "velocity"].any
        (fun w => strContains msgL w) then
      let pr := applySpeedChanges step2.1 message
      if pr.changed then (pr.code, pr.changes) else (step2.1, [])
    else (step2.1, [])
  (step3.1, step1.2 ++ step2.2 ++ step3.2)

/-- `ModificationEngine._apply_fallback_modification` (source
contractions are rendered without apostrophes; only non-emptiness of the
text is ever used). -/
def applyFallbackModification (state : GameState) : ModResult :=
  { modified_code := state.code,
    code_changed := false,
    modifications_applied := [],
    ai_response :=
      "I could not apply the requested modification. " ++
        "Please try rephrasing your request.",
    strategy_used := "fallback",
    tokens_used := none,
    validation_issues := [],
    error := some "Modification could not be applied" }

/-- `ModificationEngine._apply_ai_modification`: delegate to the AI
collaborator; any raised error falls back. -/
def applyAiModification (state : GameState) (fn : AIFn) : ModResult :=
  match fn with
  | .ok r =>
    { modified_code := r.modified_code,
      code_changed := r.code_changed,
      modifications_applied := r.modifications_applied,
      ai_response := r.ai_response,
      strategy_used := "ai_modification",
      tokens_used := some r.tokens_used,
      validation_issues := r.validation_issues,
      error := none }
  | .error _ => applyFallbackModification state

/-- `ModificationEngine._apply_targeted_modification`: run the
sub-transforms, validate with the module-level `validator`, and fall
back to AI modification when validation fails. -/
def applyTargetedModification (message : String) (state : GameState)
    (fn : AIFn) : ModResult :=
  let tr := targetedTransformed state.code message
  if (comprehensiveValidateGameCode tr.1).1 = false then
    applyAiModification state fn
  else
    { modified_code := tr.1,
      code_changed := tr.1 ≠ state.code,
      modifications_applied := tr.2,
      ai_response := generateModificationResponse tr.2,
      strategy_used := "targeted_change",
      tokens_used := none,
      -- `issues if not is_valid else []` is `[]` on this branch
      validation_issues := [],
      error := none }

/-- `ModificationEngine._create_new_version`.  `generation_time` is
`modification_result.get("modification_time", 0)`, and the
`modification_time` key is only added to the result dict after this call,
so it is always 0 here. -/
def createNewVersion (state : GameState) (result : ModResult)
    (summary : String) (now : Nat) : GameVersion :=
  { version := state.current_version + 1,
    created_at := now,
    modification_summary := some (summary.take 200),
    modifications_applied := result.modifications_applied,
    code_size := result.modified_code.utf8ByteSize,
    generation_time := 0,
    is_current := true,
    parent_version := some state.current_version }

/-- The strategy dispatch of `apply_modification` (lines 72–83 of
`modification_engine.py`). -/
def modResultOf (message : String) (state : GameState) (fn : AIFn) :
    ModResult :=
  if (analyzeModificationRequest message).strategy = "targeted_change" then
    applyTargetedModification message state fn
  else if (analyzeModificationRequest message).strategy =
      "ai_regeneration" then
    applyAiModification state fn
  else applyFallbackModification state

/-- The commit step of `apply_modification` (lines 86–100): create the
new version, update the state, append, and clear `is_current` on every
version whose number differs from the new one. -/
def commitNewVersion (state : GameState) (result : ModResult)
    (message : String) (now : Nat) : GameState :=
  let newVersion := createNewVersion state result message now
  { state with
      code := result.modified_code,
      current_version := newVersion.version,
      versions :=
        (state.versions ++ [newVersion]).map
          (fun v =>
            if v.version ≠ newVersion.version then
              { v with is_current := false }
            else v),
      updated_at := now }

/-- `ModificationEngine.apply_modification`: select a strategy, run it,
and commit a new version when the code changed. -/
def applyModification (message : String) (state : GameState) (fn : AIFn)
    (now : Nat) : GameState × ModResult :=
  let result := modResultOf message state fn
  if result.code_changed then
    (commitNewVersion state result message now, result)
  else (state, result)

theorem applyModification_snd (message : String) (state : GameState)
    (fn : AIFn) (now : Nat) :
    (applyModification message state fn now).2 =
      modResultOf message state fn := by
  unfold applyModification
  by_cases hc : (modResultOf message state fn).code_changed <;> simp [hc]

theorem applyModification_fst_changed (message : String)
    (state : GameState) (fn : AIFn) (now : Nat)
    (hc : (modResultOf message state fn).code_changed = true) :
    (applyModification message state fn now).1 =
      commitNewVersion state (modResultOf message state fn) message now := by
  unfold applyModification
  simp [hc]

theorem applyModification_fst_unchanged (message : String)
    (state : GameState) (fn : AIFn) (now : Nat)
    (hc : (modResultOf message state fn).code_changed = false) :
    (applyModification message state fn now).1 = state := by
  unfold applyModification
  simp [hc]

/-- Number of versions marked current in a chain. -/
def countCurrent (vs : List GameVersion) : Nat :=
  (vs.filter (fun v => v.is_current)).length

/-! ### Claim theorems -/

/-- C4: for every request text, `_analyze_modification_request` chooses
the targeted strategy (`targeted_change`, the spec's `targeted_patch`)
exactly when `simple_score > complex_score` and `simple_score > 0`, with
confidence `simple_score / |simple family|`; otherwise it chooses
`ai_regeneration` with confidence `complex_score / |complex family|`,
or `1/2` when `complex_score` is zero. -/
theorem strategy_selector_spec (msg : String) :
    ((analyzeModificationRequest msg).strategy = "targeted_change" ↔
      ((analyzeModificationRequest msg).complex_score <
          (analyzeModificationRequest msg).simple_score ∧
        0 < (analyzeModificationRequest msg).simple_score)) ∧
    ((analyzeModificationRequest msg).strategy = "targeted_change" →
      (analyzeModificationRequest msg).confidence =
        ((analyzeModificationRequest msg).simple_score : Rat) /
          (simplePatterns.length : Rat)) ∧
    ((analyzeModificationRequest msg).strategy ≠ "targeted_change" →
      (analyzeModificationRequest msg).strategy = "ai_regeneration" ∧
      (analyzeModificationRequest msg).confidence =
        (if (analyzeModificationRequest msg).complex_score = 0 then
          (1 : Rat) / 2
        else
          ((analyzeModificationRequest msg).complex_score : Rat) /
            (complexPatterns.length : Rat))) := by
  by_cases h :
      ((complexPatterns.filter
          (fun p => strContains (pyLower msg) p)).length <
        (simplePatterns.filter
          (fun p => strContains (pyLower msg) p)).length ∧
        0 < (simplePatterns.filter
          (fun p => strContains (pyLower msg) p)).length)
  · refine ⟨?_, ?_, ?_⟩ <;>
      simp [analyzeModificationRequest, gt_iff_lt, h, h.1, h.2]
  · have hne : ("ai_regeneration" : String) ≠ "targeted_change" := by decide
    refine ⟨?_, ?_, ?_⟩
    · simp only [analyzeModificationRequest, gt_iff_lt, if_neg h]
      exact ⟨fun hx => absurd hx hne, fun hx => absurd hx h⟩
    · intro hcontra
      simp only [analyzeModificationRequest, gt_iff_lt, if_neg h] at hcontra
      exact absurd hcontra hne
    · intro _
      refine ⟨by simp only [analyzeModificationRequest, gt_iff_lt, if_neg h],
        ?_⟩
      by_cases hz :
          (complexPatterns.filter
            (fun p => strContains (pyLower msg) p)).length = 0
      · simp only [analyzeModificationRequest, gt_iff_lt, if_neg h]
        simp [hz]
      · simp only [analyzeModificationRequest, gt_iff_lt, if_neg h]
        simp [hz, Nat.pos_of_ne_zero hz]

/-- Witness for C4: on the request `"make it red"` the selector picks the
targeted strategy with confidence `1/10`. -/
theorem strategy_selector_spec_witness :
    (analyzeModificationRequest "make it red").strategy =
        "targeted_change" ∧
    (analyzeModificationRequest "make it red").confidence = 1 / 10 := by
  have h := strategy_selector_spec "make it red"
  have hstrat := (h.1).mpr (by decide)
  refine ⟨hstrat, ?_⟩
  have hconf := h.2.1 hstrat
  rw [hconf]
  have hs : (analyzeModificationRequest "make it red").simple_score = 1 := by
    decide
  rw [hs]
  norm_num [simplePatterns]

/-- After the commit step of `apply_modification` (append the new
version, clear `is_current` elsewhere), exactly one version is current,
provided no pre-existing version shares the new version number. -/
theorem commit_count (vs : List GameVersion) (nv : GameVersion)
    (hnvcur : nv.is_current = true)
    (hne : ∀ v ∈ vs, v.version ≠ nv.version) :
    countCurrent ((vs ++ [nv]).map
      (fun v =>
        if v.version ≠ nv.version then { v with is_current := false }
        else v)) = 1 := by
  unfold countCurrent
  rw [List.map_append, List.filter_append]
  have h1 : (vs.map
      (fun v =>
        if v.version ≠ nv.version then { v with is_current := false }
        else v)).filter (fun v => v.is_current) = [] := by
    rw [List.filter_eq_nil_iff]
    intro a ha
    rcases List.mem_map.mp ha with ⟨v, hv, rfl⟩
    simp [hne v hv]
  have h2 : (([nv] : List GameVersion).map
      (fun v =>
        if v.version ≠ nv.version then { v with is_current := false }
        else v)).filter (fun v => v.is_current) = [nv] := by
    simp [hnvcur]
  rw [h1, h2]
  simp

/-- After the commit step, every current version carries the maximum
version number, provided all old numbers were below the new one. -/
theorem commit_max (vs : List GameVersion) (nv : GameVersion)
    (hlt : ∀ v ∈ vs, v.version < nv.version) :
    ∀ v ∈ (vs ++ [nv]).map
        (fun v =>
          if v.version ≠ nv.version then { v with is_current := false }
          else v),
      v.is_current = true →
        ∀ w ∈ (vs ++ [nv]).map
            (fun v =>
              if v.version ≠ nv.version then { v with is_current := false }
              else v),
          w.version ≤ v.version := by
  intro v hv hvcur w hw
  have hvn : v.version = nv.version := by
    rcases List.mem_map.mp hv with ⟨u, hu, rfl⟩
    rcases List.mem_append.mp hu with hu2 | hu2
    · have hne : u.version ≠ nv.version :=
        Nat.ne_of_lt (hlt u hu2)
      simp [hne] at hvcur
    · have heq : u = nv := by simpa using hu2
      subst heq
      simp
  rcases List.mem_map.mp hw with ⟨u, hu, rfl⟩
  rcases List.mem_append.mp hu with hu2 | hu2
  · have hlt2 := hlt u hu2
    have hne : u.version ≠ nv.version := Nat.ne_of_lt hlt2
    rw [if_pos hne]
    simp only []
    omega
  · have heq : u = nv := by simpa using hu2
    subst heq
    simp [hvn]

/-- C1 (amended): if before the call the version list has exactly one
current version and, in addition, the `current_version` field dominates
every version number in the list (the consistency the claim's bare
single-current precondition does not guarantee), then after any
code-changing `apply_modification` exactly one version is current and it
carries the maximum version number. -/
theorem apply_modification_single_current
    (msg : String) (st : GameState) (fn : AIFn) (now : Nat)
    (_hone : countCurrent st.versions = 1)
    (hdom : ∀ v ∈ st.versions, v.version ≤ st.current_version)
    (hchanged : (applyModification msg st fn now).2.code_changed = true) :
    countCurrent (applyModification msg st fn now).1.versions = 1 ∧
    ∀ v ∈ (applyModification msg st fn now).1.versions,
      v.is_current = true →
        ∀ w ∈ (applyModification msg st fn now).1.versions,
          w.version ≤ v.version := by
  rw [applyModification_snd] at hchanged
  rw [applyModification_fst_changed msg st fn now hchanged]
  set result := modResultOf msg st fn with hresult
  have hlt : ∀ v ∈ st.versions,
      v.version < (createNewVersion st result msg now).version := by
    intro v hv
    have := hdom v hv
    simp only [createNewVersion]
    omega
  have hfr : ∀ v ∈ st.versions,
      v.version ≠ (createNewVersion st result msg now).version :=
    fun v hv => Nat.ne_of_lt (hlt v hv)
  unfold commitNewVersion
  exact ⟨commit_count st.versions _ rfl hfr, commit_max st.versions _ hlt⟩

/-- State and collaborator for the C1 counterexample: the version list
satisfies the single-current invariant (one current version, numbered
highest), but the `current_version` field is stale. -/
def c1State : GameState :=
  { code := "x",
    current_version := 1,
    versions :=
      [{ version := 5, created_at := 0, modification_summary := none,
         modifications_applied := [], code_size := 1, generation_time := 0,
         is_current := true, parent_version := none }],
    updated_at := 0 }

/-- A successful AI collaborator returning changed code. -/
def okAiFn : AIFn :=
  .ok { modified_code := "y", code_changed := true,
        modifications_applied := [], ai_response := "done",
        tokens_used := 0, validation_issues := [] }

/-- Counterexample to C1 as stated: the version list satisfies the
single-current invariant (exactly one current version and it is the
maximum), the modification succeeds and changes the code, yet afterwards
the unique current version (number 2 = `current_version` + 1) is not the
maximum number in the list (5 survives). -/
theorem apply_modification_single_current_cex :
    countCurrent c1State.versions = 1 ∧
    (∀ v ∈ c1State.versions, v.is_current = true →
      ∀ w ∈ c1State.versions, w.version ≤ v.version) ∧
    (applyModification "add an enemy" c1State okAiFn 3).2.code_changed =
      true ∧
    ∃ v ∈ (applyModification "add an enemy" c1State okAiFn 3).1.versions,
      v.is_current = true ∧
      ∃ w ∈ (applyModification "add an enemy" c1State okAiFn 3).1.versions,
        v.version < w.version := by
  decide

/-- A consistent one-version state (as produced by initial game
generation: chain `[version 1]`, current, `current_version = 1`). -/
def baseState : GameState :=
  { code := "x",
    current_version := 1,
    versions :=
      [{ version := 1, created_at := 0, modification_summary := none,
         modifications_applied := [], code_size := 1, generation_time := 0,
         is_current := true, parent_version := none }],
    updated_at := 0 }

/-- Witness for C1 (amended): on a consistent one-version chain a
code-changing modification leaves exactly one current version at the
maximum number. -/
theorem apply_modification_single_current_witness :
    countCurrent baseState.versions = 1 ∧
    (∀ v ∈ baseState.versions, v.version ≤ baseState.current_version) ∧
    (applyModification "add an enemy" baseState okAiFn 3).2.code_changed =
      true ∧
    (countCurrent
        (applyModification "add an enemy" baseState okAiFn 3).1.versions =
      1 ∧
    ∀ v ∈ (applyModification "add an enemy" baseState okAiFn 3).1.versions,
      v.is_current = true →
        ∀ w ∈ (applyModification "add an enemy" baseState okAiFn
             3).1.versions,
          w.version ≤ v.version) :=
  ⟨by decide, by decide, by decide,
    apply_modification_single_current "add an enemy" baseState okAiFn 3
      (by decide) (by decide) (by decide)⟩

/-- C2: whenever the AI collaborator raises (timeout, quota, …) on a run
that reaches it — either because the selector chose `ai_regeneration`,
or because a targeted attempt failed validation and escalated — the
operation returns the fallback failure result: a non-empty response
text, the unmodified artifact, `code_changed = false`, an error marker,
and an unchanged version chain and state. -/
theorem apply_modification_ai_failure
    (msg : String) (st : GameState) (e : String) (now : Nat)
    (hpath :
      (analyzeModificationRequest msg).strategy = "ai_regeneration" ∨
      ((analyzeModificationRequest msg).strategy = "targeted_change" ∧
        (comprehensiveValidateGameCode
          (targetedTransformed st.code msg).1).1 = false)) :
    (applyModification msg st (.error e) now).1 = st ∧
    (applyModification msg st (.error e) now).2.code_changed = false ∧
    (applyModification msg st (.error e) now).2.modified_code = st.code ∧
    (applyModification msg st (.error e) now).2.ai_response ≠ "" ∧
    (applyModification msg st (.error e) now).2.error.isSome = true := by
  have hres : modResultOf msg st (.error e) =
      applyFallbackModification st := by
    rcases hpath with h | ⟨h, hv⟩
    · have hne : ("ai_regeneration" : String) ≠ "targeted_change" := by
        decide
      unfold modResultOf
      rw [h]
      rw [if_neg hne, if_pos rfl]
      rfl
    · unfold modResultOf
      rw [h, if_pos rfl]
      unfold applyTargetedModification
      rw [if_pos hv]
      rfl
  have hcc : (modResultOf msg st (.error e)).code_changed = false := by
    rw [hres]
    rfl
  refine ⟨applyModification_fst_unchanged msg st (.error e) now hcc, ?_, ?_,
    ?_, ?_⟩ <;> rw [applyModification_snd, hres]
  · rfl
  · rfl
  · show ("I could not apply the requested modification. " ++
      "Please try rephrasing your request." : String) ≠ ""
    decide
  · rfl

/-- Witness for C2: on the request `"add an enemy"` (selector:
`ai_regeneration`) with a collaborator that raises `"timeout"`, the
operation falls back and the chain is unchanged. -/
theorem apply_modification_ai_failure_witness :
    ((analyzeModificationRequest "add an enemy").strategy =
        "ai_regeneration" ∨
      ((analyzeModificationRequest "add an enemy").strategy =
          "targeted_change" ∧
        (comprehensiveValidateGameCode
          (targetedTransformed baseState.code "add an enemy").1).1 =
          false)) ∧
    ((applyModification "add an enemy" baseState (.error "timeout") 3).1 =
        baseState ∧
      (applyModification "add an enemy" baseState
          (.error "timeout") 3).2.code_changed = false ∧
      (applyModification "add an enemy" baseState
          (.error "timeout") 3).2.modified_code = baseState.code ∧
      (applyModification "add an enemy" baseState
          (.error "timeout") 3).2.ai_response ≠ "" ∧
      (applyModification "add an enemy" baseState
          (.error "timeout") 3).2.error.isSome = true) :=
  ⟨Or.inl (by decide),
    apply_modification_ai_failure "add an enemy" baseState "timeout" 3
      (Or.inl (by decide))⟩

/-- A corrupted chain with zero current versions. -/
def zeroCurrentState : GameState :=
  { code := "x",
    current_version := 1,
    versions :=
      [{ version := 1, created_at := 0, modification_summary := none,
         modifications_applied := [], code_size := 1, generation_time := 0,
         is_current := false, parent_version := none }],
    updated_at := 0 }

/-- Counterexample to C3 as stated: appending to a chain with zero
current versions is not rejected — no `InvalidChainState` error exists
anywhere in the code — and a new version is appended (the model of
`apply_modification` is total, mirroring the absence of any chain-state
check in `_create_new_version`). -/
theorem invalid_chain_state_cex :
    countCurrent zeroCurrentState.versions = 0 ∧
    (applyModification "add an enemy" zeroCurrentState okAiFn
        3).1.versions.length = zeroCurrentState.versions.length + 1 ∧
    countCurrent
      (applyModification "add an enemy" zeroCurrentState okAiFn
        3).1.versions = 1 := by
  decide

/-- C3 (amended): no chain-state guard exists.  Appending to a chain
with zero or more than one current version succeeds: the new version is
appended and every other version is unmarked, so exactly one version is
current afterwards (provided no existing version already carries the new
number `current_version + 1`). -/
theorem apply_modification_no_chain_guard
    (msg : String) (st : GameState) (fn : AIFn) (now : Nat)
    (_hbad : countCurrent st.versions ≠ 1)
    (hfresh : ∀ v ∈ st.versions, v.version ≠ st.current_version + 1)
    (hchanged : (applyModification msg st fn now).2.code_changed = true) :
    (applyModification msg st fn now).1.versions.length =
      st.versions.length + 1 ∧
    countCurrent (applyModification msg st fn now).1.versions = 1 := by
  rw [applyModification_snd] at hchanged
  rw [applyModification_fst_changed msg st fn now hchanged]
  set result := modResultOf msg st fn with hresult
  have hfr : ∀ v ∈ st.versions,
      v.version ≠ (createNewVersion st result msg now).version := by
    intro v hv
    simpa [createNewVersion] using hfresh v hv
  unfold commitNewVersion
  constructor
  · simp
  · exact commit_count st.versions _ rfl hfr

/-- Witness for C3 (amended): on the zero-current chain the append goes
through and restores a single current version. -/
theorem apply_modification_no_chain_guard_witness :
    countCurrent zeroCurrentState.versions ≠ 1 ∧
    (applyModification "add an enemy" zeroCurrentState okAiFn
        3).2.code_changed = true ∧
    ((applyModification "add an enemy" zeroCurrentState okAiFn
        3).1.versions.length = zeroCurrentState.versions.length + 1 ∧
      countCurrent
        (applyModification "add an enemy" zeroCurrentState okAiFn
          3).1.versions = 1) :=
  ⟨by decide, by decide,
    apply_modification_no_chain_guard "add an enemy" zeroCurrentState
      okAiFn 3 (by decide) (by decide) (by decide)⟩

/-- If the quoted pattern matches nowhere, substitution is the
identity. -/
theorem hasQuotedMatch_false_id (pat repl : List Char) :
    ∀ l : List Char, hasQuotedMatch pat l = false →
      replaceQuotedPat pat repl l = l := by
  intro l
  induction l with
  | nil => intro _; rfl
  | cons c t ih =>
    intro h
    rw [hasQuotedMatch] at h
    simp only [Bool.or_eq_false_iff] at h
    have ih2 : rqGo pat repl 0 t = t := ih h.2
    show rqGo pat repl 0 (c :: t) = c :: t
    simp [rqGo, h.1, ih2]

/-- Substitution walks over a quote-free prefix unchanged. -/
theorem replaceQuotedPat_append_noquote (pat repl : List Char) :
    ∀ pre rest : List Char, (∀ c ∈ pre, isQuoteChar c = false) →
      replaceQuotedPat pat repl (pre ++ rest) =
        pre ++ replaceQuotedPat pat repl rest := by
  intro pre
  induction pre with
  | nil => intro rest _; simp
  | cons c t ih =>
    intro rest h
    have hc : isQuoteChar c = false := h c (by simp)
    have hm : quotedHeadMatch pat c (t ++ rest) = false := by
      simp [quotedHeadMatch, hc]
    show rqGo pat repl 0 (c :: (t ++ rest)) = c :: t ++ replaceQuotedPat pat repl rest
    rw [rqGo]
    simp only [hm, Bool.false_eq_true, if_false]
    exact congrArg (List.cons c) (ih rest (fun x hx => h x (by simp [hx])))

theorem ciIsPrefix_append_self (pat rest : List Char) :
    ciIsPrefix pat (pat ++ rest) = true := by
  induction pat with
  | nil => simp [ciIsPrefix]
  | cons c t ih => simp [ciIsPrefix, ih]

/-- Substitution fires on a quoted occurrence at the head. -/
theorem replaceQuotedPat_hit (pat repl suf : List Char) (q1 q2 : Char)
    (hq1 : isQuoteChar q1 = true) (hq2 : isQuoteChar q2 = true) :
    replaceQuotedPat pat repl (q1 :: (pat ++ q2 :: suf)) =
      repl ++ replaceQuotedPat pat repl suf := by
  have hdrop : (pat ++ q2 :: suf).drop pat.length = q2 :: suf := by
    simp [List.drop_append]
  have hm : quotedHeadMatch pat q1 (pat ++ q2 :: suf) = true := by
    simp [quotedHeadMatch, hq1, ciIsPrefix_append_self, hdrop, hq2]
  have hdrop1 : (pat ++ q2 :: suf).drop (pat.length + 1) = suf := by
    simp [List.drop_append]
  show rqGo pat repl 0 (q1 :: (pat ++ q2 :: suf)) = _
  rw [rqGo]
  simp only [hm, if_true]
  rw [rqGo_skip, hdrop1]
  rfl

theorem jsReplaceColorValues_single (content : String) (o n : String) :
    jsReplaceColorValues content [(o, n)] =
      String.mk (replaceQuotedPat o.toList
        (quoteD :: n.toList ++ [quoteD])
        (replaceQuotedPat ('#' :: o.toList)
          (quoteD :: n.toList ++ [quoteD]) content.toList)) := rfl

/-- The artifact produced by the three targeted sub-transforms is the
color sub-transform applied when the request mentions `color` (the size
and speed sub-transforms are stubs). -/
theorem targetedTransformed_code (code message : String) :
    (targetedTransformed code message).1 =
      if strContains (pyLower message) "color" then
        (if (applyColorChanges code message).changed then
          (applyColorChanges code message).code
        else code)
      else code := by
  unfold targetedTransformed
  simp only [applySizeChanges, applySpeedChanges]
  by_cases h1 : strContains (pyLower message) "color" <;>
    by_cases h2 : ["size", "bigger", "smaller", "width", "height"].any
      (fun w => strContains (pyLower message) w) <;>
    by_cases h3 : ["speed", "faster", "slower", "velocity"].any
      (fun w => strContains (pyLower message) w) <;>
    by_cases h4 : (applyColorChanges code message).changed <;>
    simp [h1, h2, h3, h4, apply_ite]

theorem jsReplaceColorValues_cons (s : String) (pr : String × String)
    (rest : List (String × String)) :
    jsReplaceColorValues s (pr :: rest) =
      jsReplaceColorValues
        (String.mk (replaceQuotedPat pr.1.toList
          (quoteD :: pr.2.toList ++ [quoteD])
          (replaceQuotedPat ('#' :: pr.1.toList)
            (quoteD :: pr.2.toList ++ [quoteD]) s.toList)))
        rest := rfl

theorem strToList_mk (l : List Char) : (String.mk l).toList = l := rfl

/-- If no trigger of any mapping entry matches in `l`, the whole color
substitution is the identity. -/
theorem jsReplaceColorValues_id (mapping : List (String × String)) :
    ∀ l : List Char,
      (∀ pr ∈ mapping,
        hasQuotedMatch ('#' :: pr.1.toList) l = false ∧
        hasQuotedMatch pr.1.toList l = false) →
      jsReplaceColorValues (String.mk l) mapping = String.mk l := by
  induction mapping with
  | nil => intro l _; rfl
  | cons pr rest ih =>
    intro l h
    have h0 := h pr (by simp)
    rw [jsReplaceColorValues_cons]
    show jsReplaceColorValues
        (String.mk (replaceQuotedPat pr.1.toList
          (quoteD :: pr.2.toList ++ [quoteD])
          (replaceQuotedPat ('#' :: pr.1.toList)
            (quoteD :: pr.2.toList ++ [quoteD]) l))) rest = String.mk l
    rw [hasQuotedMatch_false_id _ _ l h0.1,
      hasQuotedMatch_false_id _ _ l h0.2]
    exact ih l (fun q hq => h q (by simp [hq]))

/-- C10: once a color-change request has been fully satisfied (no quoted
trigger value of its color mapping remains in the patched artifact), a
second run of the targeted patch engine returns the artifact unchanged —
patching is idempotent with no cumulative drift. -/
theorem patch_idempotent (code message : String)
    (hno : ∀ pr ∈ extractColorChanges message,
      hasQuotedMatch ('#' :: pr.1.toList)
          (targetedTransformed code message).1.toList = false ∧
      hasQuotedMatch pr.1.toList
          (targetedTransformed code message).1.toList = false) :
    (targetedTransformed
        (targetedTransformed code message).1 message).1 =
      (targetedTransformed code message).1 := by
  rw [targetedTransformed_code ((targetedTransformed code message).1)
    message]
  by_cases hcol : strContains (pyLower message) "color"
  · simp only [hcol, if_true]
    unfold applyColorChanges
    cases hmap : extractColorChanges message with
    | nil => simp
    | cons pr rest =>
      simp only [List.isEmpty_cons, Bool.false_eq_true, if_false]
      have hid := jsReplaceColorValues_id (pr :: rest)
        (targetedTransformed code message).1.toList
        (by
          intro q hq
          exact hno q (by rw [hmap]; exact hq))
      simpa using hid
  · simp [hcol]

/-- Witness for C10: after the request
`"make the player color red"` is applied to the artifact `"x"`, no
trigger remains and a second application changes nothing. -/
theorem patch_idempotent_witness :
    (∀ pr ∈ extractColorChanges "make the player color red",
      hasQuotedMatch ('#' :: pr.1.toList)
          (targetedTransformed "x" "make the player color red").1.toList =
        false ∧
      hasQuotedMatch pr.1.toList
          (targetedTransformed "x" "make the player color red").1.toList =
        false) ∧
    (targetedTransformed
        (targetedTransformed "x" "make the player color red").1
        "make the player color red").1 =
      (targetedTransformed "x" "make the player color red").1 :=
  ⟨by decide,
    patch_idempotent "x" "make the player color red" (by decide)⟩

/-- Counterexample to C8 as stated.  First: on the exact request
`"make the player red"` the selector does pick the targeted strategy,
but the patch engine leaves an artifact containing `#0066cc` completely
unchanged and reports no tags — the color sub-transform only fires when
the word `color` occurs in the request.  Second: even when it does fire
(request `"make the player color red"`), an occurrence of `#0066cc` that
is not wrapped in quotes is not replaced, although `changed = true` is
reported (the substitution patterns require surrounding quotes). -/
theorem targeted_patch_red_cex :
    (analyzeModificationRequest "make the player red").strategy =
        "targeted_change" ∧
    (targetedTransformed "color: #0066cc;" "make the player red").1 =
      "color: #0066cc;" ∧
    (targetedTransformed "color: #0066cc;" "make the player red").2 =
      ([] : List String) ∧
    strContains "color: #0066cc;" "#0066cc" = true ∧
    (applyColorChanges "color: #0066cc;"
        "make the player color red").changed = true ∧
    (applyColorChanges "color: #0066cc;"
        "make the player color red").code = "color: #0066cc;" := by
  decide

/-- C8 (amended): for a request containing both `color` and a known
color name — here `"make the player color red"` — the selector chooses
the targeted strategy, and the color sub-transform reports
`changed = true` and replaces a quoted occurrence of `#0066cc` by
`"#ff0000"` (double-quoted); text outside the quoted occurrence is
untouched. -/
theorem targeted_patch_quoted_color (pre suf : List Char) (q1 q2 : Char)
    (hq1 : isQuoteChar q1 = true) (hq2 : isQuoteChar q2 = true)
    (hpre : ∀ c ∈ pre, isQuoteChar c = false)
    (h1 : hasQuotedMatch ('#' :: "#0066cc".toList)
        (pre ++ q1 :: ("#0066cc".toList ++ q2 :: suf)) = false)
    (h2 : hasQuotedMatch "#0066cc".toList suf = false) :
    (analyzeModificationRequest "make the player color red").strategy =
        "targeted_change" ∧
    (applyColorChanges
        (String.mk (pre ++ q1 :: ("#0066cc".toList ++ q2 :: suf)))
        "make the player color red").changed = true ∧
    (applyColorChanges
        (String.mk (pre ++ q1 :: ("#0066cc".toList ++ q2 :: suf)))
        "make the player color red").code =
      String.mk (pre ++ (quoteD :: "#ff0000".toList ++ quoteD :: suf)) := by
  have hmap : extractColorChanges "make the player color red" =
      [("#0066cc", "#ff0000")] := by decide
  refine ⟨by decide, ?_, ?_⟩
  · unfold applyColorChanges
    rw [hmap]
    rfl
  · unfold applyColorChanges
    rw [hmap]
    simp only [List.isEmpty_cons, Bool.false_eq_true, if_false]
    show String.mk (replaceQuotedPat "#0066cc".toList
        (quoteD :: "#ff0000".toList ++ [quoteD])
        (replaceQuotedPat ('#' :: "#0066cc".toList)
          (quoteD :: "#ff0000".toList ++ [quoteD])
          (pre ++ q1 :: ("#0066cc".toList ++ q2 :: suf)))) = _
    rw [hasQuotedMatch_false_id _ _ _ h1]
    rw [replaceQuotedPat_append_noquote _ _ pre _ hpre]
    rw [replaceQuotedPat_hit _ _ suf q1 q2 hq1 hq2]
    rw [hasQuotedMatch_false_id _ _ suf h2]
    rfl

/-- Witness for C8 (amended): the artifact `x = "#0066cc";` becomes
`x = "#ff0000";`. -/
theorem targeted_patch_quoted_color_witness :
    (analyzeModificationRequest "make the player color red").strategy =
        "targeted_change" ∧
    (applyColorChanges
        (String.mk ("x = ".toList ++ quoteD ::
          ("#0066cc".toList ++ quoteD :: ";".toList)))
        "make the player color red").changed = true ∧
    (applyColorChanges
        (String.mk ("x = ".toList ++ quoteD ::
          ("#0066cc".toList ++ quoteD :: ";".toList)))
        "make the player color red").code =
      String.mk ("x = ".toList ++
        (quoteD :: "#ff0000".toList ++ quoteD :: ";".toList)) :=
  targeted_patch_quoted_color "x = ".toList ";".toList quoteD quoteD
    (by decide) (by decide) (by decide) (by decide) (by decide)

/-! ### `services/code_validator.py`

`CodeValidator.validate_game_code` runs six passes plus a strict-mode
pass.  Its regex checks are embedded with the scanners above; its
`BeautifulSoup` queries are embedded over a small HTML tag tokenizer.
The tokenizer is the model of the external parsing collaborator: it can
fail (`Except.error`) on text that cannot be minimally tokenized
(unterminated tags, declarations, comments or attribute values), which
is the failure mode the per-pass `try/except` blocks of the source
convert into in-verdict findings. -/

/-- A start tag: lowercased name and attribute list (bare attributes
carry the empty value, as `html.parser` does). -/
structure HTag where
  name : String
  attrs : List (String × String)
  deriving Repr, DecidableEq

/-- Token stream of the tokenizer. -/
inductive HTok where
  | tagOpen (t : HTag)
  | tagClose (name : String)
  | txt (s : String)
  | decl
  | comment
  deriving Repr, DecidableEq

/-- Characters allowed in tag and attribute names. -/
def isTagNameChar (c : Char) : Bool := c.isAlphanum || c = '-' || c = ':'

/-- Lowercase a character list as a string. -/
def lowerOf (l : List Char) : String := String.mk (l.map Char.toLower)

/-- Attribute parser (fuel-driven; fuel at least the input length never
runs out).  Accepts `name`, `name=value`, `name="value"`, `name='value'`
and stray `/`; fails on an unterminated tag or attribute value. -/
def parseAttrs : Nat → List Char →
    Except String (List (String × String) × List Char)
  | 0, _ => .error "tag too long"
  | fuel + 1, l =>
    let l1 := l.dropWhile isPyWs
    match l1 with
    | [] => .error "unterminated tag"
    | '>' :: r => .ok ([], r)
    | '/' :: r =>
      (match r.dropWhile isPyWs with
       | '>' :: r2 => .ok ([], r2)
       | _ => parseAttrs fuel r)
    | c :: r =>
      let name := (c :: r).takeWhile
        (fun x => !(isPyWs x || x = '=' || x = '>' || x = '/'))
      if name.isEmpty then parseAttrs fuel r
      else
        let rest := ((c :: r).drop name.length).dropWhile isPyWs
        match rest with
        | '=' :: r2 =>
          let r3 := r2.dropWhile isPyWs
          (match r3 with
           | q :: r4 =>
             if isQuoteChar q then
               let v := r4.takeWhile (fun x => !(x = q))
               match r4.drop v.length with
               | _ :: r6 =>
                 (match parseAttrs fuel r6 with
                  | .ok (attrs, rem) =>
                    .ok ((lowerOf name, String.mk v) :: attrs, rem)
                  | .error e => .error e)
               | [] => .error "unterminated attribute value"
             else
               let v := r3.takeWhile (fun x => !(isPyWs x || x = '>'))
               match parseAttrs fuel (r3.drop v.length) with
               | .ok (attrs, rem) =>
                 .ok ((lowerOf name, String.mk v) :: attrs, rem)
               | .error e => .error e
           | [] => .error "unterminated tag")
        | _ =>
          match parseAttrs fuel rest with
          | .ok (attrs, rem) => .ok ((lowerOf name, "") :: attrs, rem)
          | .error e => .error e

/-- Case-insensitive split at the first occurrence of `pat`: returns
the text before it and the remainder after it. -/
def ciSplitAt (pat : List Char) : List Char →
    Option (List Char × List Char)
  | [] => if pat.isEmpty then some ([], []) else none
  | c :: t =>
    if ciIsPrefix pat (c :: t) then some ([], (c :: t).drop pat.length)
    else
      match ciSplitAt pat t with
      | some (before, after) => some (c :: before, after)
      | none => none

/-- The tokenizer (fuel-driven).  Mirrors `html.parser` as used by the
validator: declarations, comments, close tags, start tags with
attributes, raw text, and raw `script`/`style` content (everything up to
the matching case-insensitive close tag; a missing close tag swallows
the rest of the document as content, as `html.parser` does). -/
def tokenizeHTML : Nat → List Char → Except String (List HTok)
  | 0, _ => .error "document too long"
  | _ + 1, [] => .ok []
  | fuel + 1, '<' :: r =>
    match r with
    | [] => .error "unterminated tag"
    | '!' :: r2 =>
      if csIsPrefix ['-', '-'] r2 then
        match ciSplitAt ['-', '-', '>'] (r2.drop 2) with
        | some (_, r3) =>
          (match tokenizeHTML fuel r3 with
           | .ok toks => .ok (.comment :: toks)
           | .error e => .error e)
        | none => .error "unterminated comment"
      else
        let v := r2.takeWhile (fun x => !(x = '>'))
        (match r2.drop v.length with
         | '>' :: r3 =>
           (match tokenizeHTML fuel r3 with
            | .ok toks => .ok (.decl :: toks)
            | .error e => .error e)
         | _ => .error "unterminated declaration")
    | '/' :: r2 =>
      let name := r2.takeWhile isTagNameChar
      let junk := (r2.drop name.length).takeWhile (fun x => !(x = '>'))
      (match (r2.drop name.length).drop junk.length with
       | '>' :: r3 =>
         (match tokenizeHTML fuel r3 with
          | .ok toks => .ok (.tagClose (lowerOf name) :: toks)
          | .error e => .error e)
       | _ => .error "unterminated close tag")
    | c :: _ =>
      if c.isAlpha then
        let name := r.takeWhile isTagNameChar
        match parseAttrs (r.length + 1) (r.drop name.length) with
        | .error e => .error e
        | .ok (attrs, rest) =>
          let lname := lowerOf name
          if lname = "script" ∨ lname = "style" then
            let pr :=
              match ciSplitAt ('<' :: '/' :: lname.toList) rest with
              | some (content, after) =>
                -- skip to the `>` of the close tag
                (content,
                 ((after.takeWhile (fun x => !(x = '>'))).length + 1),
                 after, true)
              | none => (rest, 0, ([] : List Char), false)
            match pr with
            | (content, skip, after, closed) =>
              if closed then
                match tokenizeHTML fuel (after.drop skip) with
                | .ok toks =>
                  .ok (.tagOpen ⟨lname, attrs⟩ ::
                    .txt (String.mk content) :: .tagClose lname :: toks)
                | .error e => .error e
              else
                .ok [.tagOpen ⟨lname, attrs⟩, .txt (String.mk content)]
          else
            match tokenizeHTML fuel rest with
            | .ok toks => .ok (.tagOpen ⟨lname, attrs⟩ :: toks)
            | .error e => .error e
      else
        match tokenizeHTML fuel r with
        | .ok toks => .ok (.txt "<" :: toks)
        | .error e => .error e
  | fuel + 1, l =>
    let run := l.takeWhile (fun x => !(x = '<'))
    match tokenizeHTML fuel (l.drop run.length) with
    | .ok toks => .ok (.txt (String.mk run) :: toks)
    | .error e => .error e

/-- Tokenize a document (the fuel is ample: every step consumes at
least one character). -/
def tokenize (code : String) : Except String (List HTok) :=
  tokenizeHTML (code.toList.length + 1) code.toList

/-! #### Queries over the token stream (the `BeautifulSoup` calls) -/

/-- All start tags, in order (`soup.find_all()`). -/
def openTags (toks : List HTok) : List HTag :=
  toks.filterMap fun tk =>
    match tk with
    | .tagOpen t => some t
    | _ => none

/-- Start tags with a given name. -/
def tagsNamed (toks : List HTok) (n : String) : List HTag :=
  (openTags toks).filter (fun t => t.name = n)

/-- First start tag with a given name (`soup.find(name)`). -/
def findTagNamed (toks : List HTok) (n : String) : Option HTag :=
  (openTags toks).find? (fun t => t.name = n)

/-- Does the tag carry the attribute at all? -/
def hasAttr (t : HTag) (n : String) : Bool :=
  t.attrs.any (fun a => a.1 = n)

/-- Attribute value, when present. -/
def attrVal (t : HTag) (n : String) : Option String :=
  (t.attrs.find? (fun a => a.1 = n)).map (fun a => a.2)

/-- Python truthiness of `tag.get(n)`: present with a non-empty value. -/
def attrTruthy (t : HTag) (n : String) : Bool :=
  match attrVal t n with
  | some v => !(v = "")
  | none => false

/-- Concatenated text up to the next close tag (models `tag.string` for
the `title` element). -/
def collectText : List HTok → String
  | .txt s :: rest => s ++ collectText rest
  | _ => ""

/-- `soup.find("title").string`, `none` when there is no title tag. -/
def titleText : List HTok → Option String
  | [] => none
  | .tagOpen t :: rest =>
    if t.name = "title" then some (collectText rest) else titleText rest
  | _ :: rest => titleText rest

/-- Void elements that `html.parser` closes implicitly. -/
def voidElements : List String :=
  ["area", "base", "br", "col", "embed", "hr", "img", "input", "link",
   "meta", "param", "source", "track", "wbr"]

def maxDepthGo : List HTok → Nat → Nat → Nat
  | [], _, m => m
  | .tagOpen t :: rest, cur, m =>
    if voidElements.contains t.name then maxDepthGo rest cur m
    else maxDepthGo rest (cur + 1) (max m (cur + 1))
  | .tagClose _ :: rest, cur, m => maxDepthGo rest (cur - 1) m
  | _ :: rest, cur, m => maxDepthGo rest cur m

/-- Maximum element nesting depth (`_calculate_nesting_depth`; the
stack model agrees with the soup-tree depth on well-formed markup). -/
def maxNestingDepth (toks : List HTok) : Nat := maxDepthGo toks 0 0

/-- The non-`src` text content of each `script` element, in order
(`script.string` for each `find_all("script")` hit). -/
def scriptTexts : List HTok → List String
  | [] => []
  | .tagOpen t :: rest =>
    if t.name = "script" then
      (match rest with
       | .txt s :: _ => [s]
       | _ => []) ++ scriptTexts rest
    else scriptTexts rest
  | _ :: rest => scriptTexts rest

/-! #### The validation passes -/

/-- The fifteen `dangerous_patterns` of the validator, with the message
payload rendering each regex. -/
def cvDangerousPatterns : List (List PElem × String) :=
  [([litCIP "eval", .star .pyWs, litP "("], "eval\\s*\\("),
   ([litCIP "Function", .star .pyWs, litP "("], "Function\\s*\\("),
   ([litCIP "setTimeout", .star .pyWs, litP "("], "setTimeout\\s*\\("),
   ([litCIP "setInterval", .star .pyWs, litP "("], "setInterval\\s*\\("),
   ([litCIP "document.write", .star .pyWs, litP "("],
    "document\\.write\\s*\\("),
   ([litCIP "innerHTML", .star .pyWs, litP "="], "innerHTML\\s*="),
   ([litCIP "outerHTML", .star .pyWs, litP "="], "outerHTML\\s*="),
   ([litCIP "insertAdjacentHTML", .star .pyWs, litP "("],
    "insertAdjacentHTML\\s*\\("),
   ([litCIP "srcdoc", .star .pyWs, litP "="], "srcdoc\\s*="),
   ([litCIP "javascript:"], "javascript:"),
   ([litCIP "vbscript:"], "vbscript:"),
   ([litCIP "data:text/html"], "data:text/html"),
   ([litCIP "<iframe", .star .nonGt, litCIP "srcdoc"],
    "<iframe[^>]*srcdoc"),
   ([litCIP "<object", .star .nonGt, litCIP "data"], "<object[^>]*data"),
   ([litCIP "<embed", .star .nonGt, litCIP "src"], "<embed[^>]*src")]

/-- `data:`-URI collector (`re.findall(r'data:[^"\x27>\s]+', ...)`). -/
def dataUrisF : Nat → List Char → List (List Char)
  | 0, _ => []
  | _ + 1, [] => []
  | fuel + 1, l@(_ :: t) =>
    if ciIsPrefix ['d', 'a', 't', 'a', ':'] l then
      let run := (l.drop 5).takeWhile (clsMem .urlCh)
      if run.isEmpty then dataUrisF fuel t
      else (l.take 5 ++ run) :: dataUrisF fuel ((l.drop 5).drop run.length)
    else dataUrisF fuel t

def dataUris (l : List Char) : List (List Char) :=
  dataUrisF (l.length + 1) l

/-- `CodeValidator._validate_html_structure`: regex checks contribute
errors; the tokenizer-based checks contribute warnings, or an in-verdict
error when the text cannot be tokenized. -/
def cvValidateHtmlStructure (code : String) :
    List String × List String :=
  let regexErrors :=
    (if strHasPat code [litCIP "<!DOCTYPE", .plus .pyWs, litCIP "html>"]
     then [] else ["Missing DOCTYPE declaration"]) ++
    (if strHasPat code [litCIP "<html", .star .nonGt, litP ">"] then []
     else ["Missing <html> tag"]) ++
    (if strHasPat code [litCIP "</html>"] then []
     else ["Missing closing </html> tag"]) ++
    (if strHasPat code [litCIP "<head", .star .nonGt, litP ">"] then []
     else ["Missing <head> section"]) ++
    (if strHasPat code [litCIP "<body", .star .nonGt, litP ">"] then []
     else ["Missing <body> section"])
  match tokenize code with
  | .error e =>
    (regexErrors ++ ["HTML structure validation error: " ++ e], [])
  | .ok toks =>
    let warnings :=
      (if (tagsNamed toks "meta").any (fun t => hasAttr t "charset")
       then [] else ["Missing charset meta tag"]) ++
      (if (tagsNamed toks "meta").any
          (fun t => attrVal t "name" = some "viewport")
       then [] else ["Missing viewport meta tag"]) ++
      (match titleText toks with
       | some s => if s = "" then ["Missing or empty title tag"] else []
       | none => ["Missing or empty title tag"]) ++
      (let d := maxNestingDepth toks
       if d > 20 then
         ["Deep HTML nesting detected (depth: " ++ toString d ++ ")"]
       else [])
    (regexErrors, warnings)

/-- `CodeValidator._validate_security` (pure text scanning; its `try`
body cannot fail in this model, so the error slot stays empty). -/
def cvValidateSecurity (code : String) : List String × List String :=
  let cl := code.toList
  let dangerous :=
    (cvDangerousPatterns.filter (fun pr => scanHas pr.1 cl)).map
      (fun pr => "Dangerous pattern detected: " ++ pr.2)
  let domains :=
    ((extractUrls cl).filter
        (fun u => !allowedDomains.contains (String.mk (urlNetloc u)))).map
      (fun u => "Unauthorized external domain: " ++ String.mk (urlNetloc u))
  let handlers :=
    let n := scanCount eventHandlerPat cl
    if n > 0 then
      ["Inline event handlers detected: " ++ toString n ++ " instances"]
    else []
  let suspiciousUris :=
    if (dataUris cl).any (fun u =>
        containsSub (u.map Char.toLower) "javascript".toList ||
        containsSub (u.map Char.toLower) "vbscript".toList) then
      ["Suspicious data URIs detected"]
    else []
  let formIssue :=
    if strHasPat code [litCIP "<form", .star .nonGt, litP ">"] then
      ["Form element detected - potential data collection"]
    else []
  let wsIssue :=
    if strHasPat code [litCIP "new", .plus .pyWs, litCIP "WebSocket",
        .star .pyWs, litP "("] then
      ["WebSocket connection detected"]
    else []
  let storageIssue :=
    if strHasPat code [litCIP "localStorage"] ||
        strHasPat code [litCIP "sessionStorage"] then
      ["Local storage usage detected"]
    else []
  ([], dangerous ++ domains ++ handlers ++ suspiciousUris ++ formIssue ++
    wsIssue ++ storageIssue)

/-- Word-boundary keyword test over the lowercased text
(`re.search(r"\b(?:k1|k2|...)\b", content_lower)`). -/
def wbHasF (kws : List (List Char)) : Nat → Option Char → List Char → Bool
  | 0, _, _ => false
  | _ + 1, _, [] => false
  | fuel + 1, prev, l@(c :: t) =>
    let boundaryOk :=
      match prev with
      | some p => !isPyWord p
      | none => true
    if boundaryOk &&
        kws.any (fun k =>
          csIsPrefix k l &&
            (match l.drop k.length with
             | x :: _ => !isPyWord x
             | [] => true)) then
      true
    else wbHasF kws fuel (some c) t

def wbHas (kws : List String) (l : List Char) : Bool :=
  wbHasF (kws.map String.toList) (l.length + 1) none l

/-- Word-boundary keyword counter
(`len(re.findall(r"\b(?:k1|...)\b", text))`; a match consumes the
keyword). -/
def wbCountF (kws : List (List Char)) :
    Nat → Option Char → List Char → Nat
  | 0, _, _ => 0
  | _ + 1, _, [] => 0
  | fuel + 1, prev, l@(c :: t) =>
    let boundaryOk :=
      match prev with
      | some p => !isPyWord p
      | none => true
    match
      (if boundaryOk then
        kws.find? (fun k =>
          csIsPrefix k l &&
            (match l.drop k.length with
             | x :: _ => !isPyWord x
             | [] => true))
      else none) with
    | some k =>
      1 + wbCountF kws fuel (k.getLast? |>.getD c) (l.drop k.length)
    | none => wbCountF kws fuel (some c) t

def wbCount (kws : List String) (l : List Char) : Nat :=
  wbCountF (kws.map String.toList) (l.length + 1) none l

/-- The four inappropriate-content keyword groups. -/
def inappropriateGroups : List (List String) :=
  [["violence", "kill", "death", "blood", "gore"],
   ["adult", "sexual", "explicit"],
   ["hack", "exploit", "virus", "malware"],
   ["cheat", "crack", "pirate"]]

/-- `CodeValidator._validate_content`. -/
def cvValidateContent (code : String) : List String :=
  let contentLower := (pyLower code).toList
  let inappropriate :=
    if inappropriateGroups.any (fun g => wbHas g contentLower) then
      ["Potentially inappropriate content detected"]
    else []
  let extScripts :=
    let n := scanCount
      [litCIP "<script", .star .nonGt, litCIP "src=", .star .nonGt,
        litP ">"] code.toList
    if n > 5 then
      ["Many external scripts detected: " ++ toString n]
    else []
  inappropriate ++ extScripts

/-- Counter for matches whose matched text exceeds a length threshold
(`_analyze_javascript_quality`'s long-function check). -/
def scanCountLongF (p : List PElem) (threshold : Nat) :
    Nat → List Char → Nat
  | 0, _ => 0
  | _ + 1, [] =>
    match pmatch p ([] : List Char) with
    | some _ => 0
    | none => 0
  | fuel + 1, l@(_ :: t) =>
    match pmatch p l with
    | some r =>
      if r.length < l.length then
        (if l.length - r.length > threshold then 1 else 0) +
          scanCountLongF p threshold fuel r
      else (if 0 > threshold then 1 else 0) + scanCountLongF p threshold fuel t
    | none => scanCountLongF p threshold fuel t

def scanCountLong (p : List PElem) (threshold : Nat) (l : List Char) :
    Nat :=
  scanCountLongF p threshold (l.length + 1) l

/-- Metric values: integers, rationals (for the float scores) and
strings. -/
inductive MVal where
  | n (v : Nat)
  | q (v : Rat)
  | s (v : String)
  deriving Repr, DecidableEq

/-- `CodeValidator._analyze_javascript_quality`. -/
def cvAnalyzeJavascriptQuality (js : List Char) :
    List (String × MVal) :=
  let functionCount :=
    scanCount [litP "function", .plus .pyWs, .plus .pyWord, .star .pyWs,
      litP "("] js +
    scanCount [litP "=>"] js
  let variableCount :=
    scanCount [.litAlt ["var".toList, "let".toList, "const".toList],
      .plus .pyWs, .plus .pyWord] js
  let conditionalCount := wbCount ["if", "else", "switch"] js
  let loopCount := wbCount ["for", "while", "do"] js
  let complexity : Rat :=
    (functionCount : Rat) * 2 + (variableCount : Rat) / 2 +
      (conditionalCount : Rat) * 3 / 2 + (loopCount : Rat) * 2
  let longFunctions :=
    scanCountLong [litP "function", .star .nonLbrace, .lit [lbraceC],
      .star .nonRbrace, .lit [rbraceC]] 500 js
  [("function_count", .n functionCount),
   ("variable_count", .n variableCount),
   ("conditional_count", .n conditionalCount),
   ("loop_count", .n loopCount),
   ("complexity_score", .q complexity),
   ("long_function_count", .n longFunctions)]

/-- Numeric value of a metric (for threshold checks). -/
def mvalRat : MVal → Rat
  | .n v => (v : Rat)
  | .q v => v
  | .s _ => 0

/-- `CodeValidator._analyze_code_quality`. -/
def cvAnalyzeCodeQuality (code : String) :
    List String × List (String × MVal) :=
  let sizeBytes := code.utf8ByteSize
  let lineCount := countChar code.toList (Char.ofNat 10) + 1
  let baseMetrics : List (String × MVal) :=
    [("size_bytes", .n sizeBytes), ("lines", .n lineCount)]
  match tokenize code with
  | .error e =>
    (["Code quality analysis error: " ++ e],
      baseMetrics ++ [("analysis_error", .s e)])
  | .ok toks =>
    let inlineStyles := (openTags toks).filter (fun t => hasAttr t "style")
    let tagMetrics : List (String × MVal) :=
      [("total_elements", .n (openTags toks).length),
       ("script_tags", .n (tagsNamed toks "script").length),
       ("style_tags", .n (tagsNamed toks "style").length),
       ("img_tags", .n (tagsNamed toks "img").length),
       ("inline_styles", .n inlineStyles.length)]
    let scriptContent :=
      String.join (((scriptTexts toks).filter (fun s => !(s = ""))).map
        (fun s => s ++ String.mk [Char.ofNat 10]))
    let jsMetrics :=
      if scriptContent = "" then []
      else cvAnalyzeJavascriptQuality scriptContent.toList
    let metrics := baseMetrics ++ tagMetrics ++ jsMetrics
    let warnings :=
      (if inlineStyles.length > 10 then
        ["Excessive inline styles detected"]
      else []) ++
      (if !(scriptContent = "") ∧
          mvalRat ((jsMetrics.find? (fun kv =>
            kv.1 = "complexity_score")).map Prod.snd |>.getD (.n 0)) > 100
       then ["High JavaScript complexity detected"] else []) ++
      (if sizeBytes > gameMaxSize then
        ["Large file size: " ++ toString sizeBytes ++ " bytes"]
      else []) ++
      (if (tagsNamed toks "script").length > maxScriptTags then
        ["Too many script tags: " ++
          toString (tagsNamed toks "script").length]
      else [])
    (warnings, metrics)

/-- `CodeValidator._validate_performance`. -/
def cvValidatePerformance (code : String) : List String :=
  match tokenize code with
  | .error e => ["Performance validation error: " ++ e]
  | .ok toks =>
    let images := tagsNamed toks "img"
    let sizeHintIssue :=
      if images.length > 5 ∧ images.any (fun img =>
          let src := (attrVal img "src").getD ""
          !(["width=", "height=", "w_", "h_"].any
            (fun h => strContains src h))) then
        ["Images without size hints detected"]
      else []
    let srcScripts :=
      (tagsNamed toks "script").filter (fun s => hasAttr s "src")
    let syncScripts := srcScripts.filter (fun s =>
      !attrTruthy s "async" && !attrTruthy s "defer")
    let syncIssue :=
      if syncScripts.length > 3 then
        ["Multiple synchronous scripts may impact performance"]
      else []
    let importIssue :=
      if strHasPat code [litCIP "@import", .plus .pyWs, litCIP "url("]
      then ["CSS imports can impact performance"] else []
    let domIssue :=
      if (openTags toks).length > 1000 then
        ["Many DOM elements detected: " ++
          toString (openTags toks).length]
      else []
    sizeHintIssue ++ syncIssue ++ importIssue ++ domIssue

/-- `CodeValidator._validate_accessibility`. -/
def cvValidateAccessibility (code : String) : List String :=
  match tokenize code with
  | .error e => ["Accessibility validation error: " ++ e]
  | .ok toks =>
    let images := tagsNamed toks "img"
    let withoutAlt := images.filter (fun img => !attrTruthy img "alt")
    let altIssue :=
      if withoutAlt.length > 0 then
        ["Images without alt text: " ++ toString withoutAlt.length]
      else []
    let langIssue :=
      match findTagNamed toks "html" with
      | some t => if !attrTruthy t "lang" then
          ["Missing language attribute on html element"] else []
      | none => []
    let headingIssue :=
      if (openTags toks).any (fun t =>
          ["h1", "h2", "h3", "h4", "h5", "h6"].contains t.name) then []
      else ["No heading elements found"]
    let labelIssue :=
      if (tagsNamed toks "input").any (fun inp =>
          match attrVal inp "id" with
          | some id =>
            !(id = "") &&
            !((tagsNamed toks "label").any
              (fun lb => attrVal lb "for" = some id)) &&
            !attrTruthy inp "aria-label"
          | none => false) then
        ["Form inputs without proper labels"]
      else []
    altIssue ++ langIssue ++ headingIssue ++ labelIssue

/-- `CodeValidator._validate_javascript_syntax`. -/
def cvValidateJsSyntax (js : List Char) : Bool :=
  (countChar js lbraceC = countChar js rbraceC) &&
  (countChar js '(' = countChar js ')') &&
  !scanHas [.one .nonName, litP "var", .star .pyWs, .one .nonName] js

/-- `CodeValidator._apply_strict_validation`. -/
def cvApplyStrictValidation (code : String) : List String :=
  let innerIssue :=
    if strHasPat code [litCIP "innerHTML", .star .pyWs, litP "="] then
      ["innerHTML usage not allowed in strict mode"]
    else []
  let extIssue :=
    if strHasPat code [litCIP "http://"] ||
        strHasPat code [litCIP "https://"] then
      ["External resources not allowed in strict mode"]
    else []
  let jsIssues :=
    match tokenize code with
    | .error e => ["Strict validation error: " ++ e]
    | .ok toks =>
      ((scriptTexts toks).filter (fun s =>
        let stripped := ((s.toList.dropWhile isPyWs).reverse.dropWhile
          isPyWs).reverse
        !stripped.isEmpty && !cvValidateJsSyntax stripped)).map
        (fun _ => "JavaScript syntax validation failed")
  innerIssue ++ extIssue ++ jsIssues

/-- `ValidationLevel` from `utils/constants.py`. -/
inductive ValidationLevel where
  | strict | moderate | permissive | disabled
  deriving Repr, DecidableEq

/-- The `.value` of a validation level. -/
def ValidationLevel.value : ValidationLevel → String
  | .strict => "strict"
  | .moderate => "moderate"
  | .permissive => "permissive"
  | .disabled => "disabled"

/-- `CodeValidationResult` (pydantic model). -/
structure CodeValidationResult where
  is_valid : Bool
  errors : List String
  warnings : List String
  security_issues : List String
  code_metrics : List (String × MVal)
  deriving Repr, DecidableEq

/-- `CodeValidator.validate_game_code`.  The wall-clock validation time
is an explicit parameter `t` (the difference of the two `utcnow()`
reads); everything else is a pure function of the input text and the
validation level. -/
def validateGameCode (code : String) (lvl : ValidationLevel) (t : Rat) :
    CodeValidationResult :=
  let structure_ := cvValidateHtmlStructure code
  let security := cvValidateSecurity code
  let contentWarnings := cvValidateContent code
  let quality := cvAnalyzeCodeQuality code
  let performanceWarnings := cvValidatePerformance code
  let accessibilityWarnings :=
    if lvl = .strict ∨ lvl = .moderate then cvValidateAccessibility code
    else []
  let errors0 := structure_.1 ++ security.1
  let warnings := structure_.2 ++ contentWarnings ++ quality.1 ++
    performanceWarnings ++ accessibilityWarnings
  let securityIssues := security.2
  let isValid0 := errors0.isEmpty && securityIssues.isEmpty
  let strictErrors :=
    if lvl = .strict then cvApplyStrictValidation code else []
  let errors := errors0 ++ strictErrors
  let isValid :=
    if lvl = .strict ∧ strictErrors.length > 0 then false else isValid0
  { is_valid := isValid,
    errors := errors,
    warnings := warnings,
    security_issues := securityIssues,
    code_metrics := quality.2 ++
      [("validation_time", .q t), ("validation_level", .s lvl.value)] }

/-- C5: for every artifact and validation level, the verdict's
`is_valid` is true exactly when `errors` and `security_issues` are both
empty (strict mode only adds further error sources). -/
theorem validate_is_valid_iff (code : String) (lvl : ValidationLevel)
    (t : Rat) :
    (validateGameCode code lvl t).is_valid = true ↔
      ((validateGameCode code lvl t).errors = [] ∧
        (validateGameCode code lvl t).security_issues = []) := by
  cases lvl with
  | strict =>
    by_cases hse : cvApplyStrictValidation code = []
    · simp [validateGameCode, hse, List.isEmpty_iff, List.append_eq_nil]
    · have hlen : (cvApplyStrictValidation code).length > 0 := by
        cases hh : cvApplyStrictValidation code with
        | nil => exact absurd hh hse
        | cons a l => simp [hh]
      simp [validateGameCode, hse, hlen, List.append_eq_nil]
  | moderate =>
    simp [validateGameCode, List.isEmpty_iff, List.append_eq_nil]
  | permissive =>
    simp [validateGameCode, List.isEmpty_iff, List.append_eq_nil]
  | disabled =>
    simp [validateGameCode, List.isEmpty_iff, List.append_eq_nil]

/-- C6: the validator never propagates a tokenizer failure: on input
that cannot be minimally tokenized it still returns a complete verdict,
with `is_valid = false` and the parse failure reported as a structural
error inside the verdict (`validateGameCode` is a total function by
construction; the fallible collaborator is the tokenizer). -/
theorem validator_total_on_malformed (code : String)
    (lvl : ValidationLevel) (t : Rat) (e : String)
    (he : tokenize code = .error e) :
    (validateGameCode code lvl t).is_valid = false ∧
    ("HTML structure validation error: " ++ e) ∈
      (validateGameCode code lvl t).errors := by
  have hmem : ("HTML structure validation error: " ++ e) ∈
      (cvValidateHtmlStructure code).1 := by
    simp [cvValidateHtmlStructure, he]
  have hne : (cvValidateHtmlStructure code).1 ≠ [] :=
    List.ne_nil_of_mem hmem
  have h0 : ((cvValidateHtmlStructure code).1 ++
      (cvValidateSecurity code).1).isEmpty = false := by
    cases hh : (cvValidateHtmlStructure code).1 with
    | nil => exact absurd hh hne
    | cons a l => simp [hh]
  constructor
  · cases lvl <;> simp [validateGameCode, h0, ite_self]
  · cases lvl <;> simp [validateGameCode, List.mem_append] <;>
      exact Or.inl hmem

/-- Witness for C6: the artifact `"<div"` (an unterminated tag) yields
an invalid verdict carrying a structural parse error, not an
exception. -/
theorem validator_total_on_malformed_witness :
    tokenize "<div" = .error "unterminated tag" ∧
    ((validateGameCode "<div" .moderate 0).is_valid = false ∧
      ("HTML structure validation error: " ++ "unterminated tag") ∈
        (validateGameCode "<div" .moderate 0).errors) :=
  ⟨rfl,
    validator_total_on_malformed "<div" .moderate 0 "unterminated tag"
      rfl⟩

/-- Counterexample to C7 as stated: two runs of the validator on the
identical input at different wall-clock durations return different
verdicts, because the elapsed `validation_time` is stored inside
`code_metrics`. -/
theorem validate_deterministic_cex :
    validateGameCode "" .moderate 0 ≠ validateGameCode "" .moderate 1 := by
  decide

/-- C7 (amended): the validator is deterministic in everything except
the stored wall-clock entry: two runs on identical input agree on
`is_valid`, `errors`, `warnings`, `security_issues`, and on
`code_metrics` once the `validation_time` entry is removed. -/
theorem validate_deterministic_mod_time (code : String)
    (lvl : ValidationLevel) (t1 t2 : Rat) :
    (validateGameCode code lvl t1).is_valid =
      (validateGameCode code lvl t2).is_valid ∧
    (validateGameCode code lvl t1).errors =
      (validateGameCode code lvl t2).errors ∧
    (validateGameCode code lvl t1).warnings =
      (validateGameCode code lvl t2).warnings ∧
    (validateGameCode code lvl t1).security_issues =
      (validateGameCode code lvl t2).security_issues ∧
    (validateGameCode code lvl t1).code_metrics.filter
        (fun kv => !(kv.1 = "validation_time")) =
      (validateGameCode code lvl t2).code_metrics.filter
        (fun kv => !(kv.1 = "validation_time")) := by
  refine ⟨rfl, rfl, rfl, rfl, ?_⟩
  have key : ∀ s : Rat, (validateGameCode code lvl s).code_metrics =
      (cvAnalyzeCodeQuality code).2 ++
        [("validation_time", MVal.q s),
         ("validation_level", MVal.s lvl.value)] := fun _ => rfl
  rw [key t1, key t2, List.filter_append, List.filter_append]
  rfl

/-! ### `utils/diff_engine.py` — diff statistics and change impact

`DiffEngine.analyze_code_diff` (lines 55-124) and
`SemanticDiffAnalyzer.calculate_change_impact` (lines 600-641), with the
risk/recommendation helpers they return.  `difflib.unified_diff` is
modelled by its line counts: the counted lines are exactly those
starting with `+` or `-`, which are the `+++ modified` / `--- original`
header lines plus the body `+`/`-` lines; hunk (`@@`) and context
(space-prefixed) lines start with other characters.  The body counts
are modelled by trimming the longest common prefix and suffix of the
two line lists, which agrees with difflib whenever the differing lines
are confined to one contiguous region — the regime of every statement
below (the claim's artifact pairs differ in a single line).  When the
two line lists are equal, `unified_diff` emits nothing (no headers), so
both counts are zero. -/

/-- The newline character. -/
def nlChar : Char := Char.ofNat 10

/-- `str.splitlines()` accumulator (`cur` holds the current line
reversed).  Only the `\n` terminator occurs in the artifacts
considered; Python recognises further terminators that never appear
here.  As in Python, a final fragment is emitted only when
non-empty. -/
def splitLinesGo : List Char → List Char → List (List Char)
  | cur, [] => if cur.isEmpty then [] else [cur.reverse]
  | cur, c :: t =>
    if c = nlChar then cur.reverse :: splitLinesGo [] t
    else splitLinesGo (c :: cur) t

/-- `str.splitlines()` (analyze_code_diff lines 81-82). -/
def splitLines (s : String) : List (List Char) := splitLinesGo [] s.toList

/-- Length of the longest common prefix of two line lists. -/
def commonPrefixLen : List (List Char) → List (List Char) → Nat
  | a :: as, b :: bs => if a = b then commonPrefixLen as bs + 1 else 0
  | _, _ => 0

/-- `(additions, deletions)` of the unified diff as counted by
`startswith("+")` / `startswith("-")` (analyze_code_diff lines 84-92):
body counts by common prefix/suffix trimming, plus one each for the
`+++ modified` and `--- original` header lines, which are emitted iff
the line lists differ. -/
def diffCounts (oldL newL : List (List Char)) : Nat × Nat :=
  if oldL = newL then (0, 0)
  else
    ((newL.drop (commonPrefixLen oldL newL)).length -
        commonPrefixLen ((oldL.drop (commonPrefixLen oldL newL)).reverse)
          ((newL.drop (commonPrefixLen oldL newL)).reverse) + 1,
      (oldL.drop (commonPrefixLen oldL newL)).length -
        commonPrefixLen ((oldL.drop (commonPrefixLen oldL newL)).reverse)
          ((newL.drop (commonPrefixLen oldL newL)).reverse) + 1)

/-- Python `round(q)`: round half to even, on rationals. -/
def roundHalfEven (q : Rat) : Int :=
  if q - ((⌊q⌋ : Int) : Rat) > 1/2 then ⌊q⌋ + 1
  else if q - ((⌊q⌋ : Int) : Rat) < 1/2 then ⌊q⌋
  else if ⌊q⌋ % 2 = 0 then ⌊q⌋ else ⌊q⌋ + 1

/-- Python `round(q, 2)` (analyze_code_diff line 108,
calculate_change_impact line 636); float values are idealised to exact
rationals. -/
def round2 (q : Rat) : Rat := ((roundHalfEven (q * 100) : Int) : Rat) / 100

/-- `DiffSummary` (diff_engine.py lines 33-44), numeric fields.  The
`significant_changes` / `technical_changes` fields are filled from
independent detectors (`_detect_technical_changes`,
`_detect_significant_changes`) that have no influence on the numeric
fields and are not referenced by any claim; they are not modelled. -/
structure DiffSummary where
  total_changes : Nat
  additions : Nat
  deletions : Nat
  modifications : Nat
  files_changed : Nat
  change_percentage : Rat
  deriving Repr, DecidableEq

/-- `DiffEngine.analyze_code_diff` (lines 55-111): identical inputs
short-circuit to an all-zero summary (lines 67-78); otherwise the
unified-diff line counts give
`change_percentage = round((additions + deletions) /
max(len(old_lines), len(new_lines), 1) * 100, 2)`.  The embedded
numeric computation cannot raise, so the `except` branch (lines
113-124) is dead here. -/
def analyzeCodeDiff (old_code new_code : String) : DiffSummary :=
  if old_code = new_code then
    { total_changes := 0, additions := 0, deletions := 0,
      modifications := 0, files_changed := 0, change_percentage := 0 }
  else
    { total_changes := (diffCounts (splitLines old_code) (splitLines new_code)).1 +
        (diffCounts (splitLines old_code) (splitLines new_code)).2,
      additions := (diffCounts (splitLines old_code) (splitLines new_code)).1,
      deletions := (diffCounts (splitLines old_code) (splitLines new_code)).2,
      modifications := min (diffCounts (splitLines old_code) (splitLines new_code)).1
        (diffCounts (splitLines old_code) (splitLines new_code)).2,
      files_changed := 1,
      change_percentage :=
        round2 ((((diffCounts (splitLines old_code) (splitLines new_code)).1 +
            (diffCounts (splitLines old_code) (splitLines new_code)).2 : Nat) : Rat) /
          ((max (max (splitLines old_code).length (splitLines new_code).length) 1 : Nat) : Rat) *
          100) }

/-- `function\s+\w+` (calculate_change_impact line 618; unlike the
quality pass, no trailing paren). -/
def funcNamePat : List PElem := [litP "function", .plus .pyWs, .plus .pyWord]

/-- `(?:var|let|const)\s+\w+` (calculate_change_impact line 622). -/
def varDeclPat : List PElem :=
  [.litAlt [String.toList "var", String.toList "let", String.toList "const"],
    .plus .pyWs, .plus .pyWord]

/-- `try\s*\x7b` (_identify_risk_factors line 649). -/
def tryBracePat : List PElem := [litP "try", .star .pyWs, .lit [lbraceC]]

/-- `SemanticDiffAnalyzer._identify_risk_factors` (lines 643-668).
`len(re.findall(r"\b(?:for|while)\b", code))` is `wbCount
["for", "while"]`: whole-word matches of distinct keywords cannot
overlap, so the alternation count is the boundary-scanned count. -/
def identifyRiskFactors (old_code new_code : String) : List String :=
  (if scanCount tryBracePat new_code.toList <
      scanCount tryBracePat old_code.toList
   then ["Removed error handling code"] else []) ++
  (if (wbCount ["for", "while"] old_code.toList) * 2 <
      wbCount ["for", "while"] new_code.toList
   then ["Significant increase in loop structures"] else []) ++
  (["innerHTML", "eval", "document.write"].filter
      (fun p => !(strContains old_code p) && strContains new_code p)).map
    (fun p => "Added potentially unsafe code: " ++ p)

/-- `SemanticDiffAnalyzer._generate_recommendations` (lines 670-697);
the apostrophe of the source string is spliced in as `quoteS`. -/
def generateRecommendations (impact_level : String) : List String :=
  if impact_level = "high" then
    ["Thoroughly test all game functionality",
     "Verify performance hasn" ++ String.mk [quoteS] ++ "t degraded",
     "Check for breaking changes",
     "Consider code review"]
  else if impact_level = "medium" then
    ["Test modified features",
     "Verify game still works as expected",
     "Check for unintended side effects"]
  else
    ["Basic functionality test recommended",
     "Changes appear minimal and safe"]

/-- Impact-level thresholds (calculate_change_impact lines 626-632);
the float literals 0.5 and 0.2 are the exact rationals 1/2 and 1/5. -/
def impactLevel (size_change : Rat) (function_change var_change : Nat) : String :=
  if size_change > 1/2 ∨ function_change > 3 ∨ var_change > 5 then "high"
  else if size_change > 1/5 ∨ function_change > 1 ∨ var_change > 2 then "medium"
  else "low"

/-- The impact dictionary returned by `calculate_change_impact`
(lines 634-641). -/
structure ImpactReport where
  impact_level : String
  size_change_percent : Rat
  functions_changed : Nat
  variables_changed : Nat
  risk_factors : List String
  recommendations : List String
  deriving Repr, DecidableEq

/-- `SemanticDiffAnalyzer.calculate_change_impact` (lines 600-641):
`size_change = abs(new_size - old_size) / max(old_size, 1)`, function
and variable declaration counts by `re.findall`, and the level
thresholds of `impactLevel`. -/
def calculateChangeImpact (old_code new_code : String) : ImpactReport :=
  { impact_level :=
      impactLevel
        (((Int.natAbs ((new_code.length : Int) - (old_code.length : Int)) : Nat) : Rat) /
          ((max old_code.length 1 : Nat) : Rat))
        (Int.natAbs ((scanCount funcNamePat new_code.toList : Int) -
          (scanCount funcNamePat old_code.toList : Int)))
        (Int.natAbs ((scanCount varDeclPat new_code.toList : Int) -
          (scanCount varDeclPat old_code.toList : Int))),
    size_change_percent :=
      round2 ((((Int.natAbs ((new_code.length : Int) - (old_code.length : Int)) : Nat) : Rat) /
          ((max old_code.length 1 : Nat) : Rat)) * 100),
    functions_changed :=
      Int.natAbs ((scanCount funcNamePat new_code.toList : Int) -
        (scanCount funcNamePat old_code.toList : Int)),
    variables_changed :=
      Int.natAbs ((scanCount varDeclPat new_code.toList : Int) -
        (scanCount varDeclPat old_code.toList : Int)),
    risk_factors := identifyRiskFactors old_code new_code,
    recommendations :=
      generateRecommendations
        (impactLevel
          (((Int.natAbs ((new_code.length : Int) - (old_code.length : Int)) : Nat) : Rat) /
            ((max old_code.length 1 : Nat) : Rat))
          (Int.natAbs ((scanCount funcNamePat new_code.toList : Int) -
            (scanCount funcNamePat old_code.toList : Int)))
          (Int.natAbs ((scanCount varDeclPat new_code.toList : Int) -
            (scanCount varDeclPat old_code.toList : Int)))) }

theorem strLength_mk (l : List Char) : (String.mk l).length = l.length := rfl

theorem analyzeCodeDiff_cp (old_code new_code : String)
    (h : ¬ old_code = new_code) :
    (analyzeCodeDiff old_code new_code).change_percentage =
      round2 ((((diffCounts (splitLines old_code) (splitLines new_code)).1 +
          (diffCounts (splitLines old_code) (splitLines new_code)).2 : Nat) : Rat) /
        ((max (max (splitLines old_code).length (splitLines new_code).length) 1 : Nat) : Rat) *
        100) := by
  unfold analyzeCodeDiff
  rw [if_neg h]

theorem calculateChangeImpact_level (old_code new_code : String) :
    (calculateChangeImpact old_code new_code).impact_level =
      impactLevel
        (((Int.natAbs ((new_code.length : Int) - (old_code.length : Int)) : Nat) : Rat) /
          ((max old_code.length 1 : Nat) : Rat))
        (Int.natAbs ((scanCount funcNamePat new_code.toList : Int) -
          (scanCount funcNamePat old_code.toList : Int)))
        (Int.natAbs ((scanCount varDeclPat new_code.toList : Int) -
          (scanCount varDeclPat old_code.toList : Int))) := rfl

theorem roundHalfEven_intCast (n : Int) : roundHalfEven ((n : Rat)) = n := by
  unfold roundHalfEven
  rw [Int.floor_intCast]
  norm_num

theorem roundHalfEven_le (q : Rat) : ((roundHalfEven q : Int) : Rat) ≤ q + 1/2 := by
  unfold roundHalfEven
  have hf : ((⌊q⌋ : Int) : Rat) ≤ q := Int.floor_le q
  by_cases h1 : q - ((⌊q⌋ : Int) : Rat) > 1/2
  · rw [if_pos h1]; push_cast; linarith
  · rw [if_neg h1]
    by_cases h2 : q - ((⌊q⌋ : Int) : Rat) < 1/2
    · rw [if_pos h2]; linarith
    · rw [if_neg h2]
      have heq : q - ((⌊q⌋ : Int) : Rat) = 1/2 :=
        le_antisymm (not_lt.1 h1) (not_lt.1 h2)
      by_cases h3 : ⌊q⌋ % 2 = 0
      · rw [if_pos h3]; linarith
      · rw [if_neg h3]; push_cast; linarith

theorem round2_le (q : Rat) : round2 q ≤ q + 1/200 := by
  unfold round2
  have h := roundHalfEven_le (q * 100)
  have h100 : (0 : Rat) < 100 := by norm_num
  rw [div_le_iff₀ h100]
  linarith

theorem round2_intCast (n : Int) : round2 ((n : Rat)) = n := by
  unfold round2
  have harg : ((n : Rat)) * 100 = (((n * 100 : Int)) : Rat) := by push_cast; ring
  rw [harg, roundHalfEven_intCast]
  push_cast
  field_simp

/-- Counterexample to C9 as stated: the pair `"var x = 1"` /
`"var x = 2"` differs only in one numeric literal on a single line, yet
`change_percentage` is 400 — the counted `+++`/`---` diff header lines
alone exceed a one-line total — rather than `< 5`; and the pair
`"var x = 9"` / `"var x = 90000000000000000000"` also differs only in
one numeric literal on a single line, yet the literal growth drives
`size_change` past 0.5 and `impact_level` to `"high"`, not `"low"`. -/
theorem diff_small_change_cex :
    ¬ ((analyzeCodeDiff "var x = 1" "var x = 2").change_percentage < 5) ∧
      (calculateChangeImpact "var x = 9"
          "var x = 90000000000000000000").impact_level = "high" := by
  constructor
  · have hcp : (analyzeCodeDiff "var x = 1" "var x = 2").change_percentage = 400 := by
      rw [analyzeCodeDiff_cp _ _ (by decide)]
      have h1 : (diffCounts (splitLines "var x = 1") (splitLines "var x = 2")).1 = 2 := by decide
      have h2 : (diffCounts (splitLines "var x = 1") (splitLines "var x = 2")).2 = 2 := by decide
      have h3 : (max (max (splitLines "var x = 1").length (splitLines "var x = 2").length) 1) = 1 := by decide
      rw [h1, h2, h3]
      have h4 : (((2 + 2 : Nat) : Rat) / ((1 : Nat) : Rat) * 100) = ((400 : Int) : Rat) := by
        push_cast; norm_num
      rw [h4, round2_intCast]
      norm_num
    rw [hcp]; norm_num
  · rw [calculateChangeImpact_level]
    have hf : Int.natAbs
        ((scanCount funcNamePat ("var x = 90000000000000000000" : String).toList : Int) -
          (scanCount funcNamePat ("var x = 9" : String).toList : Int)) = 0 := by decide
    have hv : Int.natAbs
        ((scanCount varDeclPat ("var x = 90000000000000000000" : String).toList : Int) -
          (scanCount varDeclPat ("var x = 9" : String).toList : Int)) = 0 := by decide
    have hl1 : ("var x = 9" : String).length = 9 := by decide
    have hl2 : ("var x = 90000000000000000000" : String).length = 28 := by decide
    rw [hf, hv, hl1, hl2]
    have hn : Int.natAbs (((28 : Nat) : Int) - ((9 : Nat) : Int)) = 19 := by decide
    have hm : (max (9 : Nat) 1) = 9 := by decide
    rw [hn, hm]
    have hgt : (((19 : Nat) : Rat) / ((9 : Nat) : Rat)) > 1/2 := by push_cast; norm_num
    unfold impactLevel
    rw [if_pos (Or.inl hgt)]

/-- Digit-for-digit equivalence: the two character lists agree except
that at some positions both hold (possibly different) decimal
digits. -/
inductive DEq : List Char → List Char → Prop
  | nil : DEq [] []
  | cons {c1 c2 : Char} {t1 t2 : List Char} :
      (c1 = c2 ∨ (c1.isDigit = true ∧ c2.isDigit = true)) → DEq t1 t2 →
      DEq (c1 :: t1) (c2 :: t2)

theorem DEq.refl : ∀ (l : List Char), DEq l l
  | [] => DEq.nil
  | _ :: t => DEq.cons (Or.inl rfl) (DEq.refl t)

theorem DEq.length_eq {l1 l2 : List Char} (h : DEq l1 l2) :
    l1.length = l2.length := by
  induction h with
  | nil => rfl
  | cons hc ht ih => simp [List.length_cons, ih]

theorem DEq.append {a b c d : List Char} (h1 : DEq a b) (h2 : DEq c d) :
    DEq (a ++ c) (b ++ d) := by
  induction h1 with
  | nil => exact h2
  | cons hc ht ih => exact DEq.cons hc ih

theorem DEq.drop {l1 l2 : List Char} (h : DEq l1 l2) :
    ∀ (n : Nat), DEq (l1.drop n) (l2.drop n) := by
  induction h with
  | nil => intro n; simp only [List.drop_nil]; exact DEq.nil
  | cons hc ht ih =>
    intro n
    cases n with
    | zero => exact DEq.cons hc ht
    | succ n => simp only [List.drop_succ_cons]; exact ih n

theorem dEq_of_digits : ∀ (d1 d2 : List Char), d1.length = d2.length →
    (∀ c ∈ d1, c.isDigit = true) → (∀ c ∈ d2, c.isDigit = true) →
    DEq d1 d2 := by
  intro d1
  induction d1 with
  | nil =>
    intro d2 hl _ _
    cases d2 with
    | nil => exact DEq.nil
    | cons _ _ => simp at hl
  | cons c t ih =>
    intro d2 hl h1 h2
    cases d2 with
    | nil => simp at hl
    | cons c2 t2 =>
      exact DEq.cons
        (Or.inr ⟨h1 c (List.mem_cons_self c t), h2 c2 (List.mem_cons_self c2 t2)⟩)
        (ih t2 (by simpa using hl)
          (fun x hx => h1 x (List.mem_cons_of_mem c hx))
          (fun x hx => h2 x (List.mem_cons_of_mem c2 hx)))

theorem digit_ne {c d : Char} (hc : c.isDigit = true) (hd : d.isDigit = false) :
    ¬ c = d := by
  intro he
  rw [he, hd] at hc
  exact Bool.noConfusion hc

theorem isPyWs_digit {c : Char} (h : c.isDigit = true) : isPyWs c = false := by
  unfold isPyWs
  have h1 : ¬ c = ' ' := digit_ne h (by decide)
  have h2 : ¬ c = Char.ofNat 9 := digit_ne h (by decide)
  have h3 : ¬ c = Char.ofNat 10 := digit_ne h (by decide)
  have h4 : ¬ c = Char.ofNat 13 := digit_ne h (by decide)
  have h5 : ¬ c = Char.ofNat 11 := digit_ne h (by decide)
  have h6 : ¬ c = Char.ofNat 12 := digit_ne h (by decide)
  simp [h1, h2, h3, h4, h5, h6]

theorem isPyWord_digit {c : Char} (h : c.isDigit = true) : isPyWord c = true := by
  simp [isPyWord, Char.isAlphanum, h]

/-- Classes whose membership is insensitive to replacing a digit by
another digit (only the two classes used by the impact patterns need to
be listed). -/
def clsOkD : CharCls → Bool
  | .pyWs => true
  | .pyWord => true
  | _ => false

theorem clsMem_dEq {cls : CharCls} (hok : clsOkD cls = true) {c1 c2 : Char}
    (h : c1 = c2 ∨ (c1.isDigit = true ∧ c2.isDigit = true)) :
    clsMem cls c1 = clsMem cls c2 := by
  cases h with
  | inl he => rw [he]
  | inr hd =>
    cases cls <;> try exact Bool.noConfusion hok
    · show isPyWs c1 = isPyWs c2
      rw [isPyWs_digit hd.1, isPyWs_digit hd.2]
    · show isPyWord c1 = isPyWord c2
      rw [isPyWord_digit hd.1, isPyWord_digit hd.2]

theorem csIsPrefix_dEq (s : List Char) (hs : ∀ c ∈ s, c.isDigit = false) :
    ∀ {l1 l2 : List Char}, DEq l1 l2 → csIsPrefix s l1 = csIsPrefix s l2 := by
  induction s with
  | nil => intro l1 l2 _; rfl
  | cons a s ih =>
    intro l1 l2 h
    cases h with
    | nil => rfl
    | @cons c1 c2 t1 t2 hc ht =>
      have hrec := ih (fun c hcm => hs c (List.mem_cons_of_mem a hcm)) ht
      have ha : a.isDigit = false := hs a (List.mem_cons_self a s)
      cases hc with
      | inl he => rw [he] at *; simp [csIsPrefix, hrec]
      | inr hd =>
        have h1 : ¬ a = c1 := fun he => (digit_ne hd.1 ha) he.symm
        have h2 : ¬ a = c2 := fun he => (digit_ne hd.2 ha) he.symm
        simp [csIsPrefix, h1, h2]

theorem find?_congr_loc {α : Type} (f g : α → Bool) :
    ∀ (l : List α), (∀ x ∈ l, f x = g x) → l.find? f = l.find? g := by
  intro l
  induction l with
  | nil => intro _; rfl
  | cons a l ih =>
    intro h
    simp only [List.find?]
    rw [h a (List.mem_cons_self a l)]
    cases hg : g a with
    | true => rfl
    | false => exact ih (fun x hx => h x (List.mem_cons_of_mem a hx))

/-- Pattern elements that treat all digits alike: digit-free literals
and repetitions over digit-insensitive classes. -/
def pelemOkD : PElem → Bool
  | .lit s => s.all (fun c => !(c.isDigit))
  | .litCI _ => false
  | .litAlt ss => ss.all (fun s => s.all (fun c => !(c.isDigit)))
  | .one c => clsOkD c
  | .star c => clsOkD c
  | .plus c => clsOkD c

/-- Lifting of `DEq` to `pmatch` results. -/
def OptDEq : Option (List Char) → Option (List Char) → Prop
  | none, none => True
  | some r1, some r2 => DEq r1 r2
  | _, _ => False

theorem noDigit_of_all {s : List Char} (h : s.all (fun c => !(c.isDigit)) = true) :
    ∀ c ∈ s, c.isDigit = false := by
  intro c hc
  have := List.all_eq_true.1 h c hc
  simpa using this

theorem pmatchF_dEq :
    ∀ (fuel : Nat) (ps : List PElem), ps.all pelemOkD = true →
      ∀ {l1 l2 : List Char}, DEq l1 l2 →
        OptDEq (pmatchF fuel ps l1) (pmatchF fuel ps l2) := by
  intro fuel
  induction fuel with
  | zero => intro ps _ l1 l2 _; exact trivial
  | succ fuel ih =>
    intro ps hps l1 l2 h
    match ps with
    | [] => exact h
    | .lit s :: ps =>
      rw [List.all_cons, Bool.and_eq_true] at hps
      have hs : ∀ c ∈ s, c.isDigit = false := noDigit_of_all hps.1
      have hpre := csIsPrefix_dEq s hs h
      simp only [pmatchF]
      by_cases hp : csIsPrefix s l1 = true
      · rw [if_pos hp, if_pos (hpre ▸ hp)]
        exact ih ps hps.2 (h.drop s.length)
      · rw [if_neg hp, if_neg (fun hc => hp (hpre.symm ▸ hc))]
        exact trivial
    | .litCI s :: ps =>
      rw [List.all_cons, Bool.and_eq_true] at hps
      exact Bool.noConfusion hps.1
    | .litAlt ss :: ps =>
      rw [List.all_cons, Bool.and_eq_true] at hps
      have hs : ∀ s ∈ ss, ∀ c ∈ s, c.isDigit = false := by
        intro s hsm
        exact noDigit_of_all (List.all_eq_true.1 hps.1 s hsm)
      have hfind : ss.find? (fun s => csIsPrefix s l1) =
          ss.find? (fun s => csIsPrefix s l2) :=
        find?_congr_loc _ _ ss (fun s hsm => csIsPrefix_dEq s (hs s hsm) h)
      simp only [pmatchF]
      rw [hfind]
      cases hf : ss.find? (fun s => csIsPrefix s l2) with
      | none => exact trivial
      | some s => exact ih ps hps.2 (h.drop s.length)
    | .one c :: ps =>
      rw [List.all_cons, Bool.and_eq_true] at hps
      cases h with
      | nil => exact trivial
      | @cons c1 c2 t1 t2 hc ht =>
        have hcm := clsMem_dEq hps.1 hc
        simp only [pmatchF]
        by_cases hx : clsMem c c1 = true
        · rw [if_pos hx, if_pos (hcm ▸ hx)]
          exact ih ps hps.2 ht
        · rw [if_neg hx, if_neg (fun hy => hx (hcm.symm ▸ hy))]
          exact trivial
    | .star c :: ps =>
      rw [List.all_cons, Bool.and_eq_true] at hps
      have hrec := ih ps hps.2 h
      simp only [pmatchF]
      cases hm1 : pmatchF fuel ps l1 with
      | some r1 =>
        cases hm2 : pmatchF fuel ps l2 with
        | some r2 =>
          rw [hm1, hm2] at hrec
          exact hrec
        | none =>
          rw [hm1, hm2] at hrec
          exact hrec.elim
      | none =>
        cases hm2 : pmatchF fuel ps l2 with
        | some r2 =>
          rw [hm1, hm2] at hrec
          exact hrec.elim
        | none =>
          cases h with
          | nil => exact trivial
          | @cons c1 c2 t1 t2 hc ht =>
            have hcm := clsMem_dEq hps.1 hc
            simp only []
            by_cases hx : clsMem c c1 = true
            · rw [if_pos hx, if_pos (hcm ▸ hx)]
              exact ih (.star c :: ps)
                (by rw [List.all_cons, Bool.and_eq_true]; exact hps) ht
            · rw [if_neg hx, if_neg (fun hy => hx (hcm.symm ▸ hy))]
              exact trivial
    | .plus c :: ps =>
      rw [List.all_cons, Bool.and_eq_true] at hps
      cases h with
      | nil => exact trivial
      | @cons c1 c2 t1 t2 hc ht =>
        have hcm := clsMem_dEq hps.1 hc
        simp only [pmatchF]
        by_cases hx : clsMem c c1 = true
        · rw [if_pos hx, if_pos (hcm ▸ hx)]
          exact ih (.star c :: ps)
            (by rw [List.all_cons, Bool.and_eq_true]; exact hps) ht
        · rw [if_neg hx, if_neg (fun hy => hx (hcm.symm ▸ hy))]
          exact trivial

theorem pmatch_dEq (ps : List PElem) (hps : ps.all pelemOkD = true)
    {l1 l2 : List Char} (h : DEq l1 l2) :
    OptDEq (pmatch ps l1) (pmatch ps l2) := by
  unfold pmatch
  rw [h.length_eq]
  exact pmatchF_dEq _ ps hps h

theorem scanCountF_dEq (p : List PElem) (hp : p.all pelemOkD = true) :
    ∀ (fuel : Nat) {l1 l2 : List Char}, DEq l1 l2 →
      scanCountF p fuel l1 = scanCountF p fuel l2 := by
  intro fuel
  induction fuel with
  | zero => intro l1 l2 _; rfl
  | succ fuel ih =>
    intro l1 l2 h
    have hm := pmatch_dEq p hp h
    simp only [scanCountF]
    cases hm1 : pmatch p l1 with
    | some r1 =>
      cases hm2 : pmatch p l2 with
      | none =>
        rw [hm1, hm2] at hm
        exact hm.elim
      | some r2 =>
        rw [hm1, hm2] at hm
        have hrl : r1.length = r2.length := hm.length_eq
        have hll : l1.length = l2.length := h.length_eq
        simp only []
        by_cases hlt : r1.length < l1.length
        · rw [if_pos hlt, if_pos (by rw [← hrl, ← hll]; exact hlt)]
          rw [ih hm]
        · rw [if_neg hlt, if_neg (by rw [← hrl, ← hll]; exact hlt)]
          cases h with
          | nil => rfl
          | @cons c1 c2 t1 t2 hc ht =>
            simp only []
            rw [ih ht]
    | none =>
      cases hm2 : pmatch p l2 with
      | some r2 =>
        rw [hm1, hm2] at hm
        exact hm.elim
      | none =>
        cases h with
        | nil => rfl
        | @cons c1 c2 t1 t2 hc ht =>
          simp only []
          exact ih ht

theorem scanCount_dEq (p : List PElem) (hp : p.all pelemOkD = true)
    {l1 l2 : List Char} (h : DEq l1 l2) :
    scanCount p l1 = scanCount p l2 := by
  unfold scanCount
  rw [h.length_eq]
  exact scanCountF_dEq p hp _ h

/-- `"\n".join(lines)` — the inverse of `splitlines` used to build the
artifacts the amended claim quantifies over. -/
def intercalateNl : List (List Char) → List Char
  | [] => []
  | l :: ls =>
    match ls with
    | [] => l
    | _ :: _ => l ++ nlChar :: intercalateNl ls

/-- The final line of the list is non-empty (vacuously true for `[]`);
under this side condition `splitlines` inverts the join. -/
def lastLineOk : List (List Char) → Bool
  | [] => true
  | l :: ls =>
    match ls with
    | [] => !l.isEmpty
    | _ :: _ => lastLineOk ls

theorem splitLinesGo_shift :
    ∀ (a : List Char), nlChar ∉ a → ∀ (cur rest : List Char),
      splitLinesGo cur (a ++ rest) = splitLinesGo (a.reverse ++ cur) rest := by
  intro a
  induction a with
  | nil => intro _ cur rest; rfl
  | cons c a ih =>
    intro ha cur rest
    have hc : ¬ c = nlChar := by
      intro h
      apply ha
      rw [h]
      exact List.mem_cons_self _ _
    rw [List.cons_append]
    simp only [splitLinesGo]
    rw [if_neg hc, ih (fun hm => ha (List.mem_cons_of_mem c hm)) (c :: cur) rest]
    congr 1
    simp [List.reverse_cons, List.append_assoc]

theorem splitLinesGo_last (l : List Char) (hl : nlChar ∉ l) :
    splitLinesGo [] l = if l.isEmpty then [] else [l] := by
  have hs := splitLinesGo_shift l hl [] []
  rw [List.append_nil] at hs
  rw [hs]
  simp only [splitLinesGo, List.append_nil]
  cases l with
  | nil => rfl
  | cons c t =>
    have h1 : (c :: t).reverse.isEmpty = false := by
      simp [List.isEmpty_iff]
    have h2 : (c :: t).isEmpty = false := rfl
    rw [h1, h2]
    simp [List.reverse_reverse]

theorem splitLines_intercalateNl :
    ∀ (ls : List (List Char)), (∀ l ∈ ls, nlChar ∉ l) →
      lastLineOk ls = true → splitLinesGo [] (intercalateNl ls) = ls := by
  intro ls
  induction ls with
  | nil => intro _ _; rfl
  | cons l ls ih =>
    intro hnl hlast
    cases ls with
    | nil =>
      show splitLinesGo [] l = [l]
      rw [splitLinesGo_last l (hnl l (List.mem_cons_self l []))]
      have he : l.isEmpty = false := by
        have := hlast
        simp only [lastLineOk, Bool.not_eq_true'] at this
        exact this
      rw [he]
      rfl
    | cons l2 ls2 =>
      show splitLinesGo [] (l ++ nlChar :: intercalateNl (l2 :: ls2)) = l :: l2 :: ls2
      rw [splitLinesGo_shift l (hnl l (List.mem_cons_self l (l2 :: ls2))) [] _,
        List.append_nil]
      simp only [splitLinesGo]
      rw [if_pos trivial, List.reverse_reverse,
        ih (fun x hx => hnl x (List.mem_cons_of_mem l hx)) hlast]

theorem commonPrefixLen_append (a : List (List Char)) :
    ∀ (x y : List (List Char)),
      commonPrefixLen (a ++ x) (a ++ y) = a.length + commonPrefixLen x y := by
  induction a with
  | nil => intro x y; simp [commonPrefixLen]
  | cons c a ih =>
    intro x y
    show (if c = c then commonPrefixLen (a ++ x) (a ++ y) + 1 else 0) = _
    rw [if_pos rfl, ih]
    simp only [List.length_cons]
    omega

theorem commonPrefixLen_ne {x y : List Char} (h : x ≠ y)
    (xs ys : List (List Char)) :
    commonPrefixLen (x :: xs) (y :: ys) = 0 := by
  simp [commonPrefixLen, h]

theorem diffCounts_one (pre post : List (List Char)) {L1 L2 : List Char}
    (h : L1 ≠ L2) :
    diffCounts (pre ++ L1 :: post) (pre ++ L2 :: post) = (2, 2) := by
  have hne : pre ++ L1 :: post ≠ pre ++ L2 :: post := by
    intro hc
    have h2 : L1 :: post = L2 :: post := (List.append_right_inj pre).mp hc
    injection h2 with h3 _
    exact h h3
  unfold diffCounts
  rw [if_neg hne]
  have hp : commonPrefixLen (pre ++ L1 :: post) (pre ++ L2 :: post) =
      pre.length := by
    rw [commonPrefixLen_append, commonPrefixLen_ne h]
    omega
  have hs : commonPrefixLen (L1 :: post).reverse (L2 :: post).reverse =
      post.length := by
    rw [List.reverse_cons, List.reverse_cons, commonPrefixLen_append,
      commonPrefixLen_ne h, List.length_reverse]
    omega
  rw [hp, List.drop_left, List.drop_left, hs]
  simp only [List.length_cons, Prod.mk.injEq]
  omega

theorem intercalateNl_cons_ne (x : List Char) {l : List (List Char)}
    (h : l ≠ []) :
    intercalateNl (x :: l) = x ++ nlChar :: intercalateNl l := by
  cases l with
  | nil => exact absurd rfl h
  | cons a t => rfl

theorem dEq_intercalate {M1 M2 : List Char} (hM : DEq M1 M2) :
    ∀ (pre : List (List Char)) (post : List (List Char)),
      DEq (intercalateNl (pre ++ M1 :: post))
        (intercalateNl (pre ++ M2 :: post)) := by
  intro pre
  induction pre with
  | nil =>
    intro post
    cases post with
    | nil => exact hM
    | cons p ps =>
      show DEq (M1 ++ nlChar :: intercalateNl (p :: ps))
        (M2 ++ nlChar :: intercalateNl (p :: ps))
      exact hM.append (DEq.refl _)
  | cons a pre ih =>
    intro post
    rw [List.cons_append, List.cons_append,
      intercalateNl_cons_ne a (by simp), intercalateNl_cons_ne a (by simp)]
    exact (DEq.refl a).append (DEq.cons (Or.inl rfl) (ih post))

theorem isEmpty_eq_false_of_ne_nil {l : List Char} (h : l ≠ []) :
    l.isEmpty = false := by
  cases l with
  | nil => exact absurd rfl h
  | cons _ _ => rfl

theorem lastLineOk_append (a : List (List Char)) (x : List Char)
    (b : List (List Char)) :
    lastLineOk (a ++ x :: b) = lastLineOk (x :: b) := by
  induction a with
  | nil => rfl
  | cons c a ih =>
    rw [List.cons_append]
    cases hE : a ++ x :: b with
    | nil => exact absurd hE (by simp)
    | cons h t =>
      rw [hE] at ih
      show lastLineOk (h :: t) = lastLineOk (x :: b)
      exact ih

/-- C9 (amended): for artifacts of more than 80 lines that differ only
in one numeric literal on a single line — the differing literals being
non-empty digit runs of the same length — the diff analyzer reports
`change_percentage < 5` and the impact calculation reports
`impact_level = "low"`. -/
theorem diff_small_change
    (pre post : List (List Char)) (mid suf d1 d2 : List Char)
    (hnl : ∀ l ∈ pre ++ (mid ++ d1 ++ suf) :: post, nlChar ∉ l)
    (hd1 : ∀ c ∈ d1, c.isDigit = true) (hd2 : ∀ c ∈ d2, c.isDigit = true)
    (hd1ne : d1 ≠ []) (hlen : d1.length = d2.length) (hdne : d1 ≠ d2)
    (hlast : lastLineOk post = true)
    (hlines : 80 < pre.length + 1 + post.length) :
    (analyzeCodeDiff
        (String.mk (intercalateNl (pre ++ (mid ++ d1 ++ suf) :: post)))
        (String.mk (intercalateNl
          (pre ++ (mid ++ d2 ++ suf) :: post)))).change_percentage < 5 ∧
      (calculateChangeImpact
        (String.mk (intercalateNl (pre ++ (mid ++ d1 ++ suf) :: post)))
        (String.mk (intercalateNl
          (pre ++ (mid ++ d2 ++ suf) :: post)))).impact_level = "low" := by
  have hnlD : nlChar.isDigit = false := by decide
  have hd2nl : nlChar ∉ d2 := fun hm => Bool.noConfusion (hnlD ▸ hd2 nlChar hm)
  have hnlM1 : nlChar ∉ mid ++ d1 ++ suf :=
    hnl _ (List.mem_append_right pre (List.mem_cons_self _ _))
  have hnlmid : nlChar ∉ mid :=
    fun hm => hnlM1 (List.mem_append_left _ (List.mem_append_left _ hm))
  have hnlsuf : nlChar ∉ suf := fun hm => hnlM1 (List.mem_append_right _ hm)
  have hnl2 : ∀ l ∈ pre ++ (mid ++ d2 ++ suf) :: post, nlChar ∉ l := by
    intro l hl
    rcases List.mem_append.1 hl with hpre | hcons
    · exact hnl l (List.mem_append_left _ hpre)
    · rcases List.mem_cons.1 hcons with hEq | hpost
      · subst hEq
        intro hm
        rcases List.mem_append.1 hm with hmd | hsuf
        · rcases List.mem_append.1 hmd with hmid | hd2m
          · exact hnlmid hmid
          · exact hd2nl hd2m
        · exact hnlsuf hsuf
      · exact hnl l (List.mem_append_right _ (List.mem_cons_of_mem _ hpost))
  have hM1ne : mid ++ d1 ++ suf ≠ [] := by
    intro hE
    apply hd1ne
    obtain ⟨h1, _⟩ := List.append_eq_nil.1 hE
    obtain ⟨_, h2⟩ := List.append_eq_nil.1 h1
    exact h2
  have hd2ne : d2 ≠ [] := by
    intro hE
    apply hd1ne
    rw [hE] at hlen
    exact List.length_eq_zero.1 (by simpa using hlen)
  have hM2ne : mid ++ d2 ++ suf ≠ [] := by
    intro hE
    apply hd2ne
    obtain ⟨h1, _⟩ := List.append_eq_nil.1 hE
    obtain ⟨_, h2⟩ := List.append_eq_nil.1 h1
    exact h2
  have hlast1 : lastLineOk (pre ++ (mid ++ d1 ++ suf) :: post) = true := by
    rw [lastLineOk_append]
    cases post with
    | nil =>
      show (!(mid ++ d1 ++ suf).isEmpty) = true
      rw [isEmpty_eq_false_of_ne_nil hM1ne]
      rfl
    | cons p ps => exact hlast
  have hlast2 : lastLineOk (pre ++ (mid ++ d2 ++ suf) :: post) = true := by
    rw [lastLineOk_append]
    cases post with
    | nil =>
      show (!(mid ++ d2 ++ suf).isEmpty) = true
      rw [isEmpty_eq_false_of_ne_nil hM2ne]
      rfl
    | cons p ps => exact hlast
  have hsplit1 : splitLines
      (String.mk (intercalateNl (pre ++ (mid ++ d1 ++ suf) :: post))) =
      pre ++ (mid ++ d1 ++ suf) :: post := by
    unfold splitLines
    rw [strToList_mk]
    exact splitLines_intercalateNl _ hnl hlast1
  have hsplit2 : splitLines
      (String.mk (intercalateNl (pre ++ (mid ++ d2 ++ suf) :: post))) =
      pre ++ (mid ++ d2 ++ suf) :: post := by
    unfold splitLines
    rw [strToList_mk]
    exact splitLines_intercalateNl _ hnl2 hlast2
  have hMne : mid ++ d1 ++ suf ≠ mid ++ d2 ++ suf := by
    intro hE
    apply hdne
    rw [List.append_assoc, List.append_assoc] at hE
    have h1 : d1 ++ suf = d2 ++ suf := (List.append_right_inj mid).mp hE
    exact (List.append_left_inj suf).mp h1
  have hLne : pre ++ (mid ++ d1 ++ suf) :: post ≠
      pre ++ (mid ++ d2 ++ suf) :: post := by
    intro hE
    have h2 := (List.append_right_inj pre).mp hE
    injection h2 with h3 _
    exact hMne h3
  have hsne : String.mk (intercalateNl (pre ++ (mid ++ d1 ++ suf) :: post)) ≠
      String.mk (intercalateNl (pre ++ (mid ++ d2 ++ suf) :: post)) := by
    intro hE
    apply hLne
    rw [← hsplit1, ← hsplit2, hE]
  constructor
  · rw [analyzeCodeDiff_cp _ _ hsne, hsplit1, hsplit2,
      diffCounts_one pre post hMne]
    have hfst : (((2, 2) : Nat × Nat)).1 = 2 := rfl
    have hsnd : (((2, 2) : Nat × Nat)).2 = 2 := rfl
    rw [hfst, hsnd]
    have hlen12 : (pre ++ (mid ++ d2 ++ suf) :: post).length =
        (pre ++ (mid ++ d1 ++ suf) :: post).length := by simp
    rw [hlen12, max_self]
    have h81 : 81 ≤ (pre ++ (mid ++ d1 ++ suf) :: post).length := by
      simp only [List.length_append, List.length_cons]
      omega
    rw [Nat.max_eq_left
      (by omega : 1 ≤ (pre ++ (mid ++ d1 ++ suf) :: post).length)]
    have key : ∀ N : Nat, 81 ≤ N →
        round2 (((2 + 2 : Nat) : Rat) / ((N : Nat) : Rat) * 100) < 5 := by
      intro N hbig
      have hNpos : (0 : Rat) < (N : Rat) := by
        have h0 : (0 : Nat) < N := by omega
        exact_mod_cast h0
      have hNge : (81 : Rat) ≤ (N : Rat) := by exact_mod_cast hbig
      have harg : ((2 + 2 : Nat) : Rat) / ((N : Nat) : Rat) * 100 ≤ 400/81 := by
        rw [div_mul_eq_mul_div, div_le_div_iff₀ hNpos (by norm_num)]
        push_cast
        linarith
      have hr := round2_le (((2 + 2 : Nat) : Rat) / ((N : Nat) : Rat) * 100)
      have hfin : (400 : Rat)/81 + 1/200 < 5 := by norm_num
      linarith
    exact key _ h81
  · rw [calculateChangeImpact_level]
    have hDEq : DEq (intercalateNl (pre ++ (mid ++ d1 ++ suf) :: post))
        (intercalateNl (pre ++ (mid ++ d2 ++ suf) :: post)) :=
      dEq_intercalate
        ((DEq.refl mid).append (dEq_of_digits d1 d2 hlen hd1 hd2)
          |>.append (DEq.refl suf)) pre post
    simp only [strToList_mk, strLength_mk]
    have hlenEq : (intercalateNl (pre ++ (mid ++ d2 ++ suf) :: post)).length =
        (intercalateNl (pre ++ (mid ++ d1 ++ suf) :: post)).length :=
      hDEq.length_eq.symm
    have hfc : scanCount funcNamePat
        (intercalateNl (pre ++ (mid ++ d2 ++ suf) :: post)) =
        scanCount funcNamePat
          (intercalateNl (pre ++ (mid ++ d1 ++ suf) :: post)) :=
      (scanCount_dEq _ (by decide) hDEq).symm
    have hvc : scanCount varDeclPat
        (intercalateNl (pre ++ (mid ++ d2 ++ suf) :: post)) =
        scanCount varDeclPat
          (intercalateNl (pre ++ (mid ++ d1 ++ suf) :: post)) :=
      (scanCount_dEq _ (by decide) hDEq).symm
    rw [hlenEq, hfc, hvc, sub_self, sub_self, sub_self, Int.natAbs_zero]
    have h0 : (((0 : Nat) : Rat)) /
        ((max (intercalateNl (pre ++ (mid ++ d1 ++ suf) :: post)).length 1 :
          Nat) : Rat) = 0 := by simp
    rw [h0]
    unfold impactLevel
    rw [if_neg (by norm_num), if_neg (by norm_num)]

/-- Witness for the amended C9 theorem: a concrete 81-line artifact
pair whose final line is `var x = 1` resp. `var x = 2`. -/
theorem diff_small_change_witness :
    (analyzeCodeDiff
        (String.mk (intercalateNl (List.replicate 80 ['a'] ++
          ((String.toList "var x = ") ++ ['1'] ++ []) :: [])))
        (String.mk (intercalateNl (List.replicate 80 ['a'] ++
          ((String.toList "var x = ") ++ ['2'] ++ []) ::
            [])))).change_percentage < 5 ∧
      (calculateChangeImpact
        (String.mk (intercalateNl (List.replicate 80 ['a'] ++
          ((String.toList "var x = ") ++ ['1'] ++ []) :: [])))
        (String.mk (intercalateNl (List.replicate 80 ['a'] ++
          ((String.toList "var x = ") ++ ['2'] ++ []) ::
            [])))).impact_level = "low" :=
  diff_small_change (List.replicate 80 ['a']) []
    (String.toList "var x = ") [] ['1'] ['2']
    (by decide) (by decide) (by decide) (by decide) (by decide) (by decide)
    (by decide) (by decide)
